import Mathlib

/-!
# k8s-conntrack-log: flow correlation and enrichment engine

A shallow embedding of `main.go`: the conntrack event loop of `start_conntrack`
(one iteration per event), the two lookups `rDNSPod` and `rDNSHost`, and the
watch handler of `start_pod_informer` (one iteration per notification).

Library values the program only observes (addresses, tuples, the resolver, the
clock) are inputs of the model; the library containers it mutates (the
concurrent map, the expirable LRU) are modelled by their sequential behaviour.
-/

namespace ConntrackLog

/-! ## Library data -/

/-- The kinds of a conntrack event (`conntrack.EventType`); the loop tests for
`EventNew` and `EventUpdate` only. -/
inductive EventType where
  | EventUnknown
  | EventNew
  | EventUpdate
  | EventDestroy
  | EventExpNew
  | EventExpDestroy
deriving DecidableEq, Repr

/-- The address pair of a tuple (`evt.Flow.TupleOrig.IP`). -/
structure IPTuple (Addr : Type) where
  SourceAddress : Addr
  DestinationAddress : Addr
deriving DecidableEq, Repr

/-- The transport part of a tuple (`evt.Flow.TupleOrig.Proto`). -/
structure ProtoTuple where
  Protocol : Nat
  SourcePort : Nat
  DestinationPort : Nat
deriving DecidableEq, Repr

/-- A connection tuple (`conntrack.Tuple`). -/
structure Tuple (Addr : Type) where
  IP : IPTuple Addr
  Proto : ProtoTuple
deriving DecidableEq, Repr

/-- The part of `conntrack.Flow` the loop reads: the original-direction tuple. -/
structure CtFlow (Addr : Type) where
  TupleOrig : Tuple Addr
deriving DecidableEq, Repr

/-- A conntrack event that carries a flow (`conntrack.Event`; its field `Type` is `Typ`
here). The loop reads `evt.Type` and `evt.Flow.TupleOrig` only. Expectation events,
whose `Flow` pointer is nil and on which line 92 panics, are outside this model:
every statement below is about events that have an original-direction tuple. -/
structure Event (Addr : Type) where
  Typ : EventType
  Flow : CtFlow Addr
deriving DecidableEq, Repr

/-- The three library functions the loop calls on an address or a tuple:
`netip.Addr.IsLoopback`, `netip.Addr.String` and `conntrack.Tuple.String`.
They are parameters of the model: every theorem holds for all of them. -/
structure NetLib (Addr : Type) where
  IsLoopback : Addr → Bool
  AddrString : Addr → String
  TupleString : Tuple Addr → String

/-- The pair `(names, err)` returned by `net.LookupAddr`; `err = none` is Go's `err == nil`. -/
structure LookupAddrResult where
  names : List String
  err : Option String
deriving DecidableEq, Repr

/-- What one call of `rDNSHost` observes of the outside world: the clock when the
cache is read, the resolver, and the clock when the cache is written. -/
structure Resolution where
  tGet : Nat
  LookupAddr : String → LookupAddrResult
  tAdd : Nat

/-- The outcomes `net.LookupAddr` delivers: a call that reports no error returns at
least one name (a reverse lookup without a name is reported as an error). The
program relies on it at `names[0]`. -/
def Resolution.Sound (w : Resolution) : Prop :=
  ∀ ip, (w.LookupAddr ip).err = none → (w.LookupAddr ip).names ≠ []

/-- Modelled from the spec: Go's `strings.TrimSuffix`, which the program uses to trim the
trailing root-label dot: `s` without the trailing `suffix` when it ends with it. -/
def TrimSuffix (s suffix : String) : String :=
  if suffix.data.isSuffixOf s.data then
    String.mk (s.data.take (s.data.length - suffix.data.length))
  else s

/-- Nanoseconds in a second (`time.Second`). -/
def Second : Nat := 1000000000

/-! ## The concurrent map (`cmap.Map`) -/

/-- Modelled from the spec: the concurrent map `cmap.Map[string, V]` of the flow table
and the identity cache, as the finite map it implements; `Load k = none` is `ok = false`. -/
structure CMap (V : Type) where
  Load : String → Option V

/-- The empty map (the zero value of `cmap.Map`). -/
def CMap.empty {V : Type} : CMap V := ⟨fun _ => none⟩

/-- Modelled from the spec: `Store(key, value)` overwrites the entry of `key`. -/
def CMap.Store {V : Type} (m : CMap V) (key : String) (value : V) : CMap V :=
  ⟨fun k => if k = key then some value else m.Load k⟩

/-- Modelled from the spec: `Delete(key)` removes the entry of `key`. -/
def CMap.Delete {V : Type} (m : CMap V) (key : String) : CMap V :=
  ⟨fun k => if k = key then none else m.Load k⟩

/-- Modelled from the spec: `LoadOrStore(key, value)` returns the existing value and
`true`, or stores `value` and returns it with `false` (get-or-create). -/
def CMap.LoadOrStore {V : Type} (m : CMap V) (key : String) (value : V) : (V × Bool) × CMap V :=
  match m.Load key with
  | some actual => ((actual, true), m)
  | none => ((value, false), m.Store key value)

/-! ## The expirable LRU (`expirable.LRU`) -/

/-- One cache entry: key, value and the instant after which it is expired. -/
structure Entry where
  Key : String
  Value : String
  ExpiresAt : Nat
deriving DecidableEq, Repr

/-- Modelled from the spec: the DNS cache `expirable.LRU[string, string]`: capacity,
time-to-live and the entries ordered from most to least recently used. -/
structure LRU where
  size : Nat
  ttl : Nat
  evictList : List Entry
deriving DecidableEq, Repr

/-- Modelled from the spec: the constructor `expirable.NewLRU(size, nil, ttl)`, an empty
cache with the given capacity and time-to-live. -/
def NewLRU (size ttl : Nat) : LRU := ⟨size, ttl, []⟩

/-- The entry stored under `key`, if any. -/
def LRU.item (c : LRU) (key : String) : Option Entry :=
  c.evictList.find? (fun e => e.Key == key)

/-- Modelled from the spec: `Get(key)` at clock `now`: a stored entry that is not expired
is a hit and becomes the most recently used; an absent or expired entry is a miss
and leaves the cache as it is. -/
def LRU.Get (c : LRU) (now : Nat) (key : String) : Option String × LRU :=
  match c.item key with
  | some ent =>
    if now > ent.ExpiresAt then (none, c)
    else (some ent.Value, { c with evictList := ent :: c.evictList.eraseP (fun e => e.Key == key) })
  | none => (none, c)

/-- Modelled from the spec: `Add(key, value)` at clock `now`: the entry of `key` is
(re)written with a fresh expiry and becomes the most recently used; a new entry
beyond the capacity evicts the least recently used one. -/
def LRU.Add (c : LRU) (now : Nat) (key value : String) : LRU :=
  match c.item key with
  | some _ =>
    { c with evictList := ⟨key, value, now + c.ttl⟩ :: c.evictList.eraseP (fun e => e.Key == key) }
  | none =>
    let l := ⟨key, value, now + c.ttl⟩ :: c.evictList
    if c.size > 0 ∧ l.length > c.size then { c with evictList := l.dropLast }
    else { c with evictList := l }

/-- An address is a live entry of the cache at `now` when `Get` would hit. -/
def LRU.Live (c : LRU) (now : Nat) (key : String) : Prop :=
  (c.Get now key).1 ≠ none

instance (c : LRU) (now : Nat) (key : String) : Decidable (c.Live now key) :=
  inferInstanceAs (Decidable ((c.Get now key).1 ≠ none))

/-! ## Program data (`main.go`, lines 33-62) -/

/-- The workload status fields the program reads (`pod.Status`). -/
structure PodStatus where
  PodIP : String
  HostIP : String
deriving DecidableEq, Repr

/-- The fields of `v1.Pod` the program reads. -/
structure Pod where
  Name : String
  Namespace : String
  Labels : List (String × String)
  Status : PodStatus
deriving DecidableEq, Repr

/-- The record `Flow` of `main.go` (lines 33-54); `Cnt` is a `uint32`. A string or a
label map is left out of the JSON output exactly when it is empty (`omitempty`). -/
structure Flow (Addr : Type) where
  Timestamp : Nat
  Src : Addr
  SrcPort : Nat
  SrcNs : String
  SrcName : String
  SrcLabels : List (String × String)
  Dest : Addr
  DstPort : Nat
  DstNs : String
  DstName : String
  DstLabels : List (String × String)
  Proto : String
  New : Bool
  Update : Bool
  Cnt : Nat
deriving DecidableEq, Repr

/-- The process-wide state: `podLUT`, `flows` and `dnsLUT` (lines 57-60). -/
structure State (Addr : Type) where
  podLUT : CMap Pod
  flows : CMap (Flow Addr)
  dnsLUT : LRU

/-- The state at start-up: empty maps and `expirable.NewLRU(512, nil, time.Second*2)`. -/
def State.init (Addr : Type) : State Addr :=
  { podLUT := CMap.empty, flows := CMap.empty, dnsLUT := NewLRU 512 (Second * 2) }

/-- One line printed by the loop (line 166): the flow key, the `existingFlow` flag and
the snapshot of the flow that is serialised. -/
structure Record (Addr : Type) where
  flowKey : String
  existingFlow : Bool
  flow : Flow Addr
deriving DecidableEq, Repr

/-! ## The lookups (`main.go`, lines 175-195) -/

/-- The function `rDNSPod`: a load from the identity cache; `none` is `ok = false`. -/
def rDNSPod (podLUT : CMap Pod) (ip : String) : Option Pod :=
  podLUT.Load ip

/-- The function `rDNSHost`. The result is `none` when the access `names[0]` is out of
range (a run-time panic); otherwise the returned pair and the cache afterwards. -/
def rDNSHost (w : Resolution) (dnsLUT : LRU) (ip : String) : Option ((String × Bool) × LRU) :=
  match dnsLUT.Get w.tGet ip with
  | (some cacheName, dnsLUT1) => some ((cacheName, true), dnsLUT1)
  | (none, dnsLUT1) =>
    let r := w.LookupAddr ip
    if r.err ≠ none then some (("", false), dnsLUT1)
    else
      match r.names with
      | [] => none
      | name0 :: _ =>
        let cacheName := TrimSuffix name0 "."
        some ((cacheName, true), dnsLUT1.Add w.tAdd ip cacheName)

/-! ## One iteration of the event loop (`main.go`, lines 89-168) -/

/-- What one iteration observes of the outside world: the resolver and clock of the
source lookup, those of the destination lookup, and `time.Now()` of line 128. -/
structure IterEnv where
  src : Resolution
  dst : Resolution
  now : Nat

/-- Lines 101-107: the display name of the source and the DNS cache afterwards. -/
def srcNameOf (w : Resolution) (dnsLUT : LRU) (srcPod : Option Pod) (ip : String) :
    Option (String × LRU) :=
  match srcPod with
  | none => (rDNSHost w dnsLUT ip).map (fun r => (r.1.1, r.2))
  | some pod => some (pod.Name, dnsLUT)

/-- Lines 109-114: the display name of the destination and the DNS cache afterwards. -/
def dstNameOf (w : Resolution) (dnsLUT : LRU) (dstPod : Option Pod) (ip : String) :
    Option (String × LRU) :=
  match dstPod with
  | none => (rDNSHost w dnsLUT ip).map (fun r => (r.1.1, r.2))
  | some pod => some (pod.Namespace ++ ":" ++ pod.Name, dnsLUT)

/-- Lines 117-122: the protocol label. -/
def protoStrOf (protocol : Nat) : String :=
  if protocol = 6 then "TCP" else "UDP"

/-- Lines 127-139: the flow offered to `LoadOrStore`. -/
def freshFlow {Addr : Type} (now : Nat) (t : Tuple Addr) : Flow Addr :=
  { Timestamp := now
    Src := t.IP.SourceAddress
    SrcPort := t.Proto.SourcePort
    SrcNs := ""
    SrcName := ""
    SrcLabels := []
    Dest := t.IP.DestinationAddress
    DstPort := t.Proto.DestinationPort
    DstNs := ""
    DstName := ""
    DstLabels := []
    Proto := protoStrOf t.Proto.Protocol
    New := false
    Update := false
    Cnt := 0 }

/-- Lines 141-147: the publish decision and the two flags. -/
def markEvent {Addr : Type} (typ : EventType) (flow : Flow Addr) : Flow Addr × Bool :=
  if typ = EventType.EventNew then ({ flow with New := true }, true)
  else if typ = EventType.EventUpdate then ({ flow with Update := true }, !flow.Update)
  else (flow, true)

/-- Lines 149-153: the source side of the enrichment. -/
def enrichSrc {Addr : Type} (srcPod : Option Pod) (srcName : String) (flow : Flow Addr) :
    Flow Addr :=
  let flow1 :=
    match srcPod with
    | some pod => { flow with SrcNs := pod.Namespace, SrcLabels := pod.Labels }
    | none => flow
  { flow1 with SrcName := srcName }

/-- Lines 155-159: the destination side of the enrichment. -/
def enrichDst {Addr : Type} (dstPod : Option Pod) (dstName : String) (flow : Flow Addr) :
    Flow Addr :=
  let flow1 :=
    match dstPod with
    | some pod => { flow with DstNs := pod.Namespace, DstLabels := pod.Labels }
    | none => flow
  { flow1 with DstName := dstName }

/-- Line 161: `flow.Cnt++` on a `uint32`. -/
def bumpCnt {Addr : Type} (flow : Flow Addr) : Flow Addr :=
  { flow with Cnt := (flow.Cnt + 1) % 2 ^ 32 }

/-- Lines 141-161 on the flow returned by `LoadOrStore`: the flow afterwards and the
publish decision `flowEvtPublish`. -/
def applyEvent {Addr : Type} (typ : EventType) (srcPod : Option Pod) (srcName : String)
    (dstPod : Option Pod) (dstName : String) (flow : Flow Addr) : Flow Addr × Bool :=
  let marked := markEvent typ flow
  (bumpCnt (enrichDst dstPod dstName (enrichSrc srcPod srcName marked.1)), marked.2)

/-- One iteration of the loop of `start_conntrack` (lines 89-168) on event `evt`.
The result is `none` when the iteration panics inside `rDNSHost`; otherwise the
state afterwards and the record printed, if one is. The flow is updated in place
through the pointer held by the flow table, hence the final `Store`. -/
def start_conntrack_iter {Addr : Type} (L : NetLib Addr) (s : State Addr) (env : IterEnv)
    (evt : Event Addr) : Option (State Addr × Option (Record Addr)) :=
  if L.IsLoopback evt.Flow.TupleOrig.IP.SourceAddress then
    some (s, none)
  else
    let srcIP := L.AddrString evt.Flow.TupleOrig.IP.SourceAddress
    let dstIP := L.AddrString evt.Flow.TupleOrig.IP.DestinationAddress
    let srcPod := rDNSPod s.podLUT srcIP
    let dstPod := rDNSPod s.podLUT dstIP
    match srcNameOf env.src s.dnsLUT srcPod srcIP with
    | none => none
    | some (srcName, dnsLUT1) =>
      match dstNameOf env.dst dnsLUT1 dstPod dstIP with
      | none => none
      | some (dstName, dnsLUT2) =>
        let flowKey := L.TupleString evt.Flow.TupleOrig
        let loaded := s.flows.LoadOrStore flowKey (freshFlow env.now evt.Flow.TupleOrig)
        let existingFlow := loaded.1.2
        let applied := applyEvent evt.Typ srcPod srcName dstPod dstName loaded.1.1
        some ({ podLUT := s.podLUT, flows := loaded.2.Store flowKey applied.1, dnsLUT := dnsLUT2 },
          if applied.2 then some ⟨flowKey, existingFlow, applied.1⟩ else none)

/-! ## One iteration of the watch handler (`main.go`, lines 241-266) -/

/-- The kinds of a watch notification (`watch.EventType`). -/
inductive WatchEventType where
  | Added
  | Modified
  | Deleted
  | Bookmark
  | Error
deriving DecidableEq, Repr

/-- A watch notification; `Object = none` when the object is not a `*v1.Pod`. -/
structure WatchEvent where
  Typ : WatchEventType
  Object : Option Pod
deriving DecidableEq, Repr

/-- One iteration of the loop of `start_pod_informer` (lines 241-266): the identity
cache after the notification. -/
def start_pod_informer_iter (podLUT : CMap Pod) (event : WatchEvent) : CMap Pod :=
  match event.Object with
  | none => podLUT
  | some pod =>
    match event.Typ with
    | WatchEventType.Added =>
      if pod.Status.PodIP ≠ pod.Status.HostIP then podLUT.Store pod.Status.PodIP pod else podLUT
    | WatchEventType.Modified =>
      if pod.Status.PodIP ≠ pod.Status.HostIP then podLUT.Store pod.Status.PodIP pod else podLUT
    | WatchEventType.Deleted => podLUT.Delete pod.Status.PodIP
    | WatchEventType.Error => podLUT
    | WatchEventType.Bookmark => podLUT

/-! ## Runs -/

/-- An input of the process: a conntrack event with what its iteration observes, or a
watch notification. -/
inductive Input (Addr : Type) where
  | conntrack (env : IterEnv) (evt : Event Addr)
  | watch (event : WatchEvent)

/-- The effect of one input on the state, and the record printed. The watch handler and
the event loop run concurrently; a run interleaves them iteration by iteration. The
lines the watch handler prints about pods are not records. -/
def handle {Addr : Type} (L : NetLib Addr) (s : State Addr) :
    Input Addr → Option (State Addr × Option (Record Addr))
  | Input.conntrack env evt => start_conntrack_iter L s env evt
  | Input.watch event => some ({ s with podLUT := start_pod_informer_iter s.podLUT event }, none)

/-- A run over a list of inputs: the final state and, input by input, the record
printed; `none` when some iteration panics. -/
def run {Addr : Type} (L : NetLib Addr) : State Addr → List (Input Addr) →
    Option (State Addr × List (Option (Record Addr)))
  | s, [] => some (s, [])
  | s, i :: rest =>
    match handle L s i with
    | none => none
    | some (s1, o) =>
      match run L s1 rest with
      | none => none
      | some (s2, os) => some (s2, o :: os)

/-- The event loop of `start_conntrack` over a sequence of events, each with what its
iteration observes. -/
def start_conntrack_loop {Addr : Type} (L : NetLib Addr) (s : State Addr)
    (evs : List (IterEnv × Event Addr)) : Option (State Addr × List (Option (Record Addr))) :=
  run L s (evs.map (fun p => Input.conntrack p.1 p.2))

/-- The `New` flag of the flow stored under `key`; `false` when there is none. -/
def State.seenNew {Addr : Type} (s : State Addr) (key : String) : Bool :=
  ((s.flows.Load key).map (fun f => f.New)).getD false

/-- The `Update` flag of the flow stored under `key`; `false` when there is none. -/
def State.seenUpdate {Addr : Type} (s : State Addr) (key : String) : Bool :=
  ((s.flows.Load key).map (fun f => f.Update)).getD false

/-- The `Cnt` field of the flow stored under `key`; `0` when there is none. -/
def State.storedCnt {Addr : Type} (s : State Addr) (key : String) : Nat :=
  ((s.flows.Load key).map (fun f => f.Cnt)).getD 0

/-! ## A concrete IPv4 instance, for worked examples -/

/-- An IPv4 address as its four octets. -/
structure IPv4 where
  a : Nat
  b : Nat
  c : Nat
  d : Nat
deriving DecidableEq, Repr

/-- Dotted-decimal text of an IPv4 address. -/
def IPv4.text (x : IPv4) : String :=
  toString x.a ++ "." ++ toString x.b ++ "." ++ toString x.c ++ "." ++ toString x.d

/-- The library functions at IPv4 addresses: loopback is `127.0.0.0/8`, and the flow key
shows protocol, source and destination with their ports. -/
def ipv4Lib : NetLib IPv4 :=
  { IsLoopback := fun x => x.a == 127
    AddrString := IPv4.text
    TupleString := fun t =>
      "<" ++ toString t.Proto.Protocol ++ ", Src: " ++ t.IP.SourceAddress.text ++ ":" ++
        toString t.Proto.SourcePort ++ ", Dst: " ++ t.IP.DestinationAddress.text ++ ":" ++
        toString t.Proto.DestinationPort ++ ">" }

/-! ## The scenario of the specification, as data -/

/-- The address `10.0.0.5`, which is not a workload. -/
def edgeAddr : IPv4 := ⟨10, 0, 0, 5⟩

/-- The address `10.0.0.9` of the workload `web/frontend`. -/
def frontendAddr : IPv4 := ⟨10, 0, 0, 9⟩

/-- The workload `web/frontend`, running at `10.0.0.9` on host `192.168.1.10`. -/
def frontendPod : Pod :=
  { Name := "frontend"
    Namespace := "web"
    Labels := [("app", "frontend")]
    Status := { PodIP := "10.0.0.9", HostIP := "192.168.1.10" } }

/-- A resolver that answers `edge.local.` to every query. -/
def edgeResolver : Resolution :=
  { tGet := 0, LookupAddr := fun _ => ⟨["edge.local."], none⟩, tAdd := 0 }

/-- A resolver that fails on every query. -/
def failingResolver : Resolution :=
  { tGet := 0, LookupAddr := fun _ => ⟨[], some "no such host"⟩, tAdd := 0 }

/-- An iteration in which both lookups see `edgeResolver`. -/
def edgeEnv : IterEnv := ⟨edgeResolver, edgeResolver, 0⟩

/-- An iteration in which both lookups see `failingResolver`. -/
def failingEnv : IterEnv := ⟨failingResolver, failingResolver, 0⟩

/-- The TCP tuple `10.0.0.5:443 -> 10.0.0.9:54321`. -/
def edgeTuple : Tuple IPv4 := ⟨⟨edgeAddr, frontendAddr⟩, ⟨6, 443, 54321⟩⟩

/-- An event of kind `typ` on `edgeTuple`. -/
def edgeEvent (typ : EventType) : Event IPv4 := ⟨typ, ⟨edgeTuple⟩⟩

/-- The start-up state after the workload `web/frontend` was added. -/
def frontendState : State IPv4 :=
  { State.init IPv4 with
    podLUT := start_pod_informer_iter CMap.empty ⟨WatchEventType.Added, some frontendPod⟩ }

/-- A host-networked workload: its pod address is the address of its host. -/
def hostNetPod : Pod :=
  { Name := "node-exporter"
    Namespace := "monitoring"
    Labels := []
    Status := { PodIP := "192.168.1.10", HostIP := "192.168.1.10" } }

/-- The loopback address `127.0.0.1`. -/
def loopbackAddr : IPv4 := ⟨127, 0, 0, 1⟩

/-- A resolver that answers `localhost` to every query. -/
def localhostResolver : Resolution :=
  { tGet := 0, LookupAddr := fun _ => ⟨["localhost"], none⟩, tAdd := 0 }

/-- A new TCP connection `127.0.0.1:443 -> 10.0.0.9:54321`. -/
def loopbackEvent : Event IPv4 :=
  ⟨EventType.EventNew, ⟨⟨⟨loopbackAddr, frontendAddr⟩, ⟨6, 443, 54321⟩⟩⟩⟩


/-! ## Basic facts -/

theorem CMap.ext_load {V : Type} {m1 m2 : CMap V} (h : ∀ k, m1.Load k = m2.Load k) : m1 = m2 := by
  cases m1; cases m2; congr; funext k; exact h k

theorem CMap.load_store {V : Type} (m : CMap V) (key k : String) (v : V) :
    (m.Store key v).Load k = if k = key then some v else m.Load k := rfl

theorem CMap.load_delete {V : Type} (m : CMap V) (key k : String) :
    (m.Delete key).Load k = if k = key then none else m.Load k := rfl

theorem CMap.loadOrStore_val {V : Type} (m : CMap V) (key : String) (v : V) :
    (m.LoadOrStore key v).1.1 = (m.Load key).getD v := by
  unfold CMap.LoadOrStore; cases m.Load key <;> rfl

theorem CMap.loadOrStore_loaded {V : Type} (m : CMap V) (key : String) (v : V) :
    (m.LoadOrStore key v).1.2 = (m.Load key).isSome := by
  unfold CMap.LoadOrStore; cases m.Load key <;> rfl

theorem CMap.loadOrStore_store {V : Type} (m : CMap V) (key : String) (v w : V) :
    (m.LoadOrStore key v).2.Store key w = m.Store key w := by
  apply CMap.ext_load
  intro k
  unfold CMap.LoadOrStore
  cases h : m.Load key with
  | none => simp only [CMap.Store]; split <;> rfl
  | some a => rfl

theorem applyEvent_new {Addr : Type} (typ : EventType) (sp : Option Pod) (sn : String)
    (dp : Option Pod) (dn : String) (f : Flow Addr) :
    (applyEvent typ sp sn dp dn f).1.New = (f.New || decide (typ = EventType.EventNew)) := by
  cases typ <;> cases sp <;> cases dp <;>
    simp [applyEvent, markEvent, enrichSrc, enrichDst, bumpCnt]

theorem applyEvent_update {Addr : Type} (typ : EventType) (sp : Option Pod) (sn : String)
    (dp : Option Pod) (dn : String) (f : Flow Addr) :
    (applyEvent typ sp sn dp dn f).1.Update = (f.Update || decide (typ = EventType.EventUpdate)) := by
  cases typ <;> cases sp <;> cases dp <;>
    simp [applyEvent, markEvent, enrichSrc, enrichDst, bumpCnt]

theorem applyEvent_publish {Addr : Type} (typ : EventType) (sp : Option Pod) (sn : String)
    (dp : Option Pod) (dn : String) (f : Flow Addr) :
    (applyEvent typ sp sn dp dn f).2 = true ↔ (typ ≠ EventType.EventUpdate ∨ f.Update = false) := by
  cases typ <;> simp [applyEvent, markEvent]

theorem applyEvent_cnt {Addr : Type} (typ : EventType) (sp : Option Pod) (sn : String)
    (dp : Option Pod) (dn : String) (f : Flow Addr) :
    (applyEvent typ sp sn dp dn f).1.Cnt = (f.Cnt + 1) % 2 ^ 32 := by
  cases typ <;> cases sp <;> cases dp <;>
    simp [applyEvent, markEvent, enrichSrc, enrichDst, bumpCnt]

theorem applyEvent_srcName {Addr : Type} (typ : EventType) (sp : Option Pod) (sn : String)
    (dp : Option Pod) (dn : String) (f : Flow Addr) :
    (applyEvent typ sp sn dp dn f).1.SrcName = sn := by
  cases typ <;> cases sp <;> cases dp <;>
    simp [applyEvent, markEvent, enrichSrc, enrichDst, bumpCnt]

theorem applyEvent_dstName {Addr : Type} (typ : EventType) (sp : Option Pod) (sn : String)
    (dp : Option Pod) (dn : String) (f : Flow Addr) :
    (applyEvent typ sp sn dp dn f).1.DstName = dn := by
  cases typ <;> cases sp <;> cases dp <;>
    simp [applyEvent, markEvent, enrichSrc, enrichDst, bumpCnt]

theorem applyEvent_srcNs {Addr : Type} (typ : EventType) (sp : Option Pod) (sn : String)
    (dp : Option Pod) (dn : String) (f : Flow Addr) :
    (applyEvent typ sp sn dp dn f).1.SrcNs = (sp.map (fun p => p.Namespace)).getD f.SrcNs := by
  cases typ <;> cases sp <;> cases dp <;>
    simp [applyEvent, markEvent, enrichSrc, enrichDst, bumpCnt]

theorem applyEvent_dstNs {Addr : Type} (typ : EventType) (sp : Option Pod) (sn : String)
    (dp : Option Pod) (dn : String) (f : Flow Addr) :
    (applyEvent typ sp sn dp dn f).1.DstNs = (dp.map (fun p => p.Namespace)).getD f.DstNs := by
  cases typ <;> cases sp <;> cases dp <;>
    simp [applyEvent, markEvent, enrichSrc, enrichDst, bumpCnt]

theorem applyEvent_srcLabels {Addr : Type} (typ : EventType) (sp : Option Pod) (sn : String)
    (dp : Option Pod) (dn : String) (f : Flow Addr) :
    (applyEvent typ sp sn dp dn f).1.SrcLabels = (sp.map (fun p => p.Labels)).getD f.SrcLabels := by
  cases typ <;> cases sp <;> cases dp <;>
    simp [applyEvent, markEvent, enrichSrc, enrichDst, bumpCnt]

theorem applyEvent_dstLabels {Addr : Type} (typ : EventType) (sp : Option Pod) (sn : String)
    (dp : Option Pod) (dn : String) (f : Flow Addr) :
    (applyEvent typ sp sn dp dn f).1.DstLabels = (dp.map (fun p => p.Labels)).getD f.DstLabels := by
  cases typ <;> cases sp <;> cases dp <;>
    simp [applyEvent, markEvent, enrichSrc, enrichDst, bumpCnt]

theorem applyEvent_proto {Addr : Type} (typ : EventType) (sp : Option Pod) (sn : String)
    (dp : Option Pod) (dn : String) (f : Flow Addr) :
    (applyEvent typ sp sn dp dn f).1.Proto = f.Proto := by
  cases typ <;> cases sp <;> cases dp <;>
    simp [applyEvent, markEvent, enrichSrc, enrichDst, bumpCnt]

/-- A sound resolver makes `rDNSHost` return. -/
theorem rDNSHost_total (w : Resolution) (hw : w.Sound) (dnsLUT : LRU) (ip : String) :
    ∃ r, rDNSHost w dnsLUT ip = some r := by
  unfold rDNSHost
  rcases hget : dnsLUT.Get w.tGet ip with ⟨_ | cacheName, dnsLUT1⟩
  · by_cases herr : (w.LookupAddr ip).err = none
    · have hn := hw ip herr
      cases hnames : (w.LookupAddr ip).names with
      | nil => exact absurd hnames hn
      | cons name0 rest => simp [herr, hnames]
    · simp [herr]
  · exact ⟨_, rfl⟩

theorem srcNameOf_total (w : Resolution) (hw : w.Sound) (dnsLUT : LRU) (p : Option Pod)
    (ip : String) : ∃ r, srcNameOf w dnsLUT p ip = some r := by
  cases p with
  | none =>
    obtain ⟨r, hr⟩ := rDNSHost_total w hw dnsLUT ip
    exact ⟨(r.1.1, r.2), by simp [srcNameOf, hr]⟩
  | some pod => exact ⟨_, rfl⟩

theorem dstNameOf_total (w : Resolution) (hw : w.Sound) (dnsLUT : LRU) (p : Option Pod)
    (ip : String) : ∃ r, dstNameOf w dnsLUT p ip = some r := by
  cases p with
  | none =>
    obtain ⟨r, hr⟩ := rDNSHost_total w hw dnsLUT ip
    exact ⟨(r.1.1, r.2), by simp [dstNameOf, hr]⟩
  | some pod => exact ⟨_, rfl⟩

/-- The iteration on a non-loopback event whose two name lookups return. -/
theorem iter_eq {Addr : Type} (L : NetLib Addr) (s : State Addr) (env : IterEnv)
    (evt : Event Addr) (srcName dstName : String) (dns1 dns2 : LRU)
    (hl : L.IsLoopback evt.Flow.TupleOrig.IP.SourceAddress = false)
    (hs : srcNameOf env.src s.dnsLUT
      (rDNSPod s.podLUT (L.AddrString evt.Flow.TupleOrig.IP.SourceAddress))
      (L.AddrString evt.Flow.TupleOrig.IP.SourceAddress) = some (srcName, dns1))
    (hd : dstNameOf env.dst dns1
      (rDNSPod s.podLUT (L.AddrString evt.Flow.TupleOrig.IP.DestinationAddress))
      (L.AddrString evt.Flow.TupleOrig.IP.DestinationAddress) = some (dstName, dns2)) :
    start_conntrack_iter L s env evt =
      some ({ podLUT := s.podLUT
              flows := s.flows.Store (L.TupleString evt.Flow.TupleOrig)
                (applyEvent evt.Typ
                  (rDNSPod s.podLUT (L.AddrString evt.Flow.TupleOrig.IP.SourceAddress)) srcName
                  (rDNSPod s.podLUT (L.AddrString evt.Flow.TupleOrig.IP.DestinationAddress)) dstName
                  ((s.flows.Load (L.TupleString evt.Flow.TupleOrig)).getD
                    (freshFlow env.now evt.Flow.TupleOrig))).1
              dnsLUT := dns2 },
        if (applyEvent evt.Typ
              (rDNSPod s.podLUT (L.AddrString evt.Flow.TupleOrig.IP.SourceAddress)) srcName
              (rDNSPod s.podLUT (L.AddrString evt.Flow.TupleOrig.IP.DestinationAddress)) dstName
              ((s.flows.Load (L.TupleString evt.Flow.TupleOrig)).getD
                (freshFlow env.now evt.Flow.TupleOrig))).2
        then some ⟨L.TupleString evt.Flow.TupleOrig,
          (s.flows.Load (L.TupleString evt.Flow.TupleOrig)).isSome,
          (applyEvent evt.Typ
              (rDNSPod s.podLUT (L.AddrString evt.Flow.TupleOrig.IP.SourceAddress)) srcName
              (rDNSPod s.podLUT (L.AddrString evt.Flow.TupleOrig.IP.DestinationAddress)) dstName
              ((s.flows.Load (L.TupleString evt.Flow.TupleOrig)).getD
                (freshFlow env.now evt.Flow.TupleOrig))).1⟩
        else none) := by
  unfold start_conntrack_iter
  simp only [hl, hs, hd, CMap.loadOrStore_val, CMap.loadOrStore_loaded, CMap.loadOrStore_store]
  rfl


/-- The iteration on a non-loopback event whose two name lookups return, by parts: the
state afterwards, the flow stored under the key and the record printed. -/
theorem iter_of_names {Addr : Type} (L : NetLib Addr) (s : State Addr) (env : IterEnv)
    (evt : Event Addr) (srcName dstName : String) (dns1 dns2 : LRU)
    (hl : L.IsLoopback evt.Flow.TupleOrig.IP.SourceAddress = false)
    (hs : srcNameOf env.src s.dnsLUT
      (rDNSPod s.podLUT (L.AddrString evt.Flow.TupleOrig.IP.SourceAddress))
      (L.AddrString evt.Flow.TupleOrig.IP.SourceAddress) = some (srcName, dns1))
    (hd : dstNameOf env.dst dns1
      (rDNSPod s.podLUT (L.AddrString evt.Flow.TupleOrig.IP.DestinationAddress))
      (L.AddrString evt.Flow.TupleOrig.IP.DestinationAddress) = some (dstName, dns2)) :
    ∃ s1 o a, start_conntrack_iter L s env evt = some (s1, o) ∧
      a = applyEvent evt.Typ
        (rDNSPod s.podLUT (L.AddrString evt.Flow.TupleOrig.IP.SourceAddress)) srcName
        (rDNSPod s.podLUT (L.AddrString evt.Flow.TupleOrig.IP.DestinationAddress)) dstName
        ((s.flows.Load (L.TupleString evt.Flow.TupleOrig)).getD
          (freshFlow env.now evt.Flow.TupleOrig)) ∧
      s1.podLUT = s.podLUT ∧ s1.dnsLUT = dns2 ∧
      s1.flows = s.flows.Store (L.TupleString evt.Flow.TupleOrig) a.1 ∧
      o = (if a.2 then
        some ⟨L.TupleString evt.Flow.TupleOrig,
          (s.flows.Load (L.TupleString evt.Flow.TupleOrig)).isSome, a.1⟩ else none) :=
  ⟨_, _, _, iter_eq L s env evt srcName dstName dns1 dns2 hl hs hd, rfl, rfl, rfl, rfl, rfl⟩

/-- Under sound resolvers both name lookups of an iteration return. -/
theorem names_total {Addr : Type} (L : NetLib Addr) (s : State Addr) (env : IterEnv)
    (evt : Event Addr) (hsrc : env.src.Sound) (hdst : env.dst.Sound) :
    ∃ srcName dns1 dstName dns2,
      srcNameOf env.src s.dnsLUT
        (rDNSPod s.podLUT (L.AddrString evt.Flow.TupleOrig.IP.SourceAddress))
        (L.AddrString evt.Flow.TupleOrig.IP.SourceAddress) = some (srcName, dns1) ∧
      dstNameOf env.dst dns1
        (rDNSPod s.podLUT (L.AddrString evt.Flow.TupleOrig.IP.DestinationAddress))
        (L.AddrString evt.Flow.TupleOrig.IP.DestinationAddress) = some (dstName, dns2) := by
  obtain ⟨⟨srcName, dns1⟩, h1⟩ := srcNameOf_total env.src hsrc s.dnsLUT
    (rDNSPod s.podLUT (L.AddrString evt.Flow.TupleOrig.IP.SourceAddress))
    (L.AddrString evt.Flow.TupleOrig.IP.SourceAddress)
  obtain ⟨⟨dstName, dns2⟩, h2⟩ := dstNameOf_total env.dst hdst dns1
    (rDNSPod s.podLUT (L.AddrString evt.Flow.TupleOrig.IP.DestinationAddress))
    (L.AddrString evt.Flow.TupleOrig.IP.DestinationAddress)
  exact ⟨srcName, dns1, dstName, dns2, h1, h2⟩

/-- An iteration that returns on a non-loopback event went through both name lookups. -/
theorem names_of_iter {Addr : Type} (L : NetLib Addr) (s s1 : State Addr) (env : IterEnv)
    (evt : Event Addr) (o : Option (Record Addr))
    (hl : L.IsLoopback evt.Flow.TupleOrig.IP.SourceAddress = false)
    (h : start_conntrack_iter L s env evt = some (s1, o)) :
    ∃ srcName dns1 dstName dns2,
      srcNameOf env.src s.dnsLUT
        (rDNSPod s.podLUT (L.AddrString evt.Flow.TupleOrig.IP.SourceAddress))
        (L.AddrString evt.Flow.TupleOrig.IP.SourceAddress) = some (srcName, dns1) ∧
      dstNameOf env.dst dns1
        (rDNSPod s.podLUT (L.AddrString evt.Flow.TupleOrig.IP.DestinationAddress))
        (L.AddrString evt.Flow.TupleOrig.IP.DestinationAddress) = some (dstName, dns2) := by
  unfold start_conntrack_iter at h
  simp only [hl] at h
  rcases h1 : srcNameOf env.src s.dnsLUT
    (rDNSPod s.podLUT (L.AddrString evt.Flow.TupleOrig.IP.SourceAddress))
    (L.AddrString evt.Flow.TupleOrig.IP.SourceAddress) with _ | ⟨srcName, dns1⟩
  · simp [h1] at h
  · rcases h2 : dstNameOf env.dst dns1
      (rDNSPod s.podLUT (L.AddrString evt.Flow.TupleOrig.IP.DestinationAddress))
      (L.AddrString evt.Flow.TupleOrig.IP.DestinationAddress) with _ | ⟨dstName, dns2⟩
    · simp [h1, h2] at h
    · exact ⟨srcName, dns1, dstName, dns2, rfl, h2⟩

/-! ## C3: loopback events -/

/-- C3. An event whose original-direction source address is loopback is discarded:
the iteration returns the state it was given (flow table, identity cache and DNS
cache all unchanged) and prints no record, whatever the kind of the event and
whatever its destination. -/
theorem loopback_event_discarded {Addr : Type} (L : NetLib Addr) (s : State Addr)
    (env : IterEnv) (evt : Event Addr)
    (h : L.IsLoopback evt.Flow.TupleOrig.IP.SourceAddress = true) :
    start_conntrack_iter L s env evt = some (s, none) := by
  unfold start_conntrack_iter
  simp [h]

/-- Worked example for C3: a new connection from `127.0.0.1` changes nothing and prints
nothing. -/
theorem loopback_event_discarded_witness :
    ipv4Lib.IsLoopback loopbackEvent.Flow.TupleOrig.IP.SourceAddress = true ∧
    start_conntrack_iter ipv4Lib frontendState edgeEnv loopbackEvent =
      some (frontendState, none) :=
  ⟨by decide, loopback_event_discarded ipv4Lib frontendState edgeEnv loopbackEvent (by decide)⟩

/-! ## C7: the host-address guard -/

/-- C7. Host-address guard: an Added or Modified notification whose pod address equals
its host address leaves the identity cache unchanged; one whose pod address `A`
differs from the host address makes `rDNSPod A` return exactly that pod and leaves
the entry of every other address unchanged. -/
theorem host_address_guard (podLUT : CMap Pod) (typ : WatchEventType) (pod : Pod)
    (htyp : typ = WatchEventType.Added ∨ typ = WatchEventType.Modified) :
    (pod.Status.PodIP = pod.Status.HostIP →
      start_pod_informer_iter podLUT ⟨typ, some pod⟩ = podLUT) ∧
    (pod.Status.PodIP ≠ pod.Status.HostIP →
      rDNSPod (start_pod_informer_iter podLUT ⟨typ, some pod⟩) pod.Status.PodIP = some pod ∧
      ∀ ip, ip ≠ pod.Status.PodIP →
        rDNSPod (start_pod_informer_iter podLUT ⟨typ, some pod⟩) ip = rDNSPod podLUT ip) := by
  rcases htyp with rfl | rfl
  · refine ⟨fun h => by simp [start_pod_informer_iter, h], fun h => ⟨?_, fun ip hip => ?_⟩⟩
    · simp [start_pod_informer_iter, h, rDNSPod, CMap.Store]
    · simp [start_pod_informer_iter, h, rDNSPod, CMap.Store, hip]
  · refine ⟨fun h => by simp [start_pod_informer_iter, h], fun h => ⟨?_, fun ip hip => ?_⟩⟩
    · simp [start_pod_informer_iter, h, rDNSPod, CMap.Store]
    · simp [start_pod_informer_iter, h, rDNSPod, CMap.Store, hip]


/-- Worked example for C7: a host-networked pod is not stored, and `web/frontend` is. -/
theorem host_address_guard_witness :
    start_pod_informer_iter CMap.empty ⟨WatchEventType.Added, some hostNetPod⟩ = CMap.empty ∧
    rDNSPod (start_pod_informer_iter CMap.empty ⟨WatchEventType.Modified, some frontendPod⟩)
      "10.0.0.9" = some frontendPod :=
  ⟨(host_address_guard CMap.empty WatchEventType.Added hostNetPod (Or.inl rfl)).1 rfl,
    ((host_address_guard CMap.empty WatchEventType.Modified frontendPod (Or.inr rfl)).2
      (by decide)).1⟩

/-! ## The DNS cache -/

theorem LRU.live_iff (c : LRU) (now : Nat) (key : String) :
    c.Live now key ↔ ∃ ent, c.item key = some ent ∧ now ≤ ent.ExpiresAt := by
  unfold LRU.Live LRU.Get
  cases h : c.item key with
  | none => simp
  | some ent =>
    by_cases hexp : now > ent.ExpiresAt
    · simp [hexp]
    · simp [hexp]; omega

theorem LRU.get_of_not_live (c : LRU) (now : Nat) (key : String) (h : ¬ c.Live now key) :
    c.Get now key = (none, c) := by
  unfold LRU.Live at h
  unfold LRU.Get at h ⊢
  cases hi : c.item key with
  | none => rfl
  | some ent =>
    by_cases hexp : now > ent.ExpiresAt
    · simp [hexp]
    · simp [hi, hexp] at h

theorem LRU.not_live_later (c : LRU) (t t2 : Nat) (key : String) (h : ¬ c.Live t key)
    (ht : t ≤ t2) : ¬ c.Live t2 key := by
  rw [LRU.live_iff] at h ⊢
  rintro ⟨ent, he, hle⟩
  exact h ⟨ent, he, le_trans ht hle⟩

theorem LRU.item_add (c : LRU) (now : Nat) (key value : String) :
    (c.Add now key value).item key = some ⟨key, value, now + c.ttl⟩ := by
  unfold LRU.Add
  cases hi : c.item key with
  | some ent => simp [LRU.item]
  | none =>
    by_cases hev : c.size > 0 ∧ (⟨key, value, now + c.ttl⟩ :: c.evictList).length > c.size
    · simp only [hev, and_self, if_true]
      cases hl : c.evictList with
      | nil => simp [hl] at hev; omega
      | cons e rest => simp [LRU.item, List.dropLast]
    · simp only [hev, if_false]
      simp [LRU.item]

theorem LRU.ttl_add (c : LRU) (now : Nat) (key value : String) :
    (c.Add now key value).ttl = c.ttl := by
  unfold LRU.Add
  cases c.item key with
  | some ent => rfl
  | none => simp only; split <;> rfl

theorem LRU.get_add (c : LRU) (now t : Nat) (key value : String) (ht : t ≤ now + c.ttl) :
    ((c.Add now key value).Get t key).1 = some value := by
  unfold LRU.Get
  rw [LRU.item_add]
  have : ¬ t > now + c.ttl := by omega
  simp [this]

theorem rDNSHost_of_live (w : Resolution) (dnsLUT : LRU) (ip : String)
    (h : dnsLUT.Live w.tGet ip) :
    ∃ cacheName, (dnsLUT.Get w.tGet ip).1 = some cacheName ∧
      rDNSHost w dnsLUT ip = some ((cacheName, true), (dnsLUT.Get w.tGet ip).2) := by
  unfold LRU.Live at h
  unfold rDNSHost
  rcases hg : dnsLUT.Get w.tGet ip with ⟨_ | cacheName, d⟩
  · simp [hg] at h
  · exact ⟨cacheName, rfl, rfl⟩

theorem rDNSHost_miss_err (w : Resolution) (dnsLUT : LRU) (ip : String)
    (hmiss : ¬ dnsLUT.Live w.tGet ip) (herr : (w.LookupAddr ip).err ≠ none) :
    rDNSHost w dnsLUT ip = some (("", false), dnsLUT) := by
  unfold rDNSHost
  rw [LRU.get_of_not_live _ _ _ hmiss]
  simp [herr]

theorem rDNSHost_miss_ok (w : Resolution) (dnsLUT : LRU) (ip : String) (name0 : String)
    (rest : List String)
    (hmiss : ¬ dnsLUT.Live w.tGet ip) (herr : (w.LookupAddr ip).err = none)
    (hnames : (w.LookupAddr ip).names = name0 :: rest) :
    rDNSHost w dnsLUT ip =
      some ((TrimSuffix name0 ".", true), dnsLUT.Add w.tAdd ip (TrimSuffix name0 ".")) := by
  unfold rDNSHost
  rw [LRU.get_of_not_live _ _ _ hmiss]
  simp [herr, hnames]

theorem rDNSHost_miss_empty (w : Resolution) (dnsLUT : LRU) (ip : String)
    (hmiss : ¬ dnsLUT.Live w.tGet ip) (herr : (w.LookupAddr ip).err = none)
    (hnames : (w.LookupAddr ip).names = []) :
    rDNSHost w dnsLUT ip = none := by
  unfold rDNSHost
  rw [LRU.get_of_not_live _ _ _ hmiss]
  simp [herr, hnames]


theorem TrimSuffix_dot_of_suffix (s : String) (m : List Char) (h : s.data = m ++ ['.']) :
    (TrimSuffix s ".").data = m := by
  have hd : ".".data = ['.'] := rfl
  have hs : List.isSuffixOf ['.'] s.data = true := by
    rw [List.isSuffixOf_iff_suffix, h]; exact List.suffix_append m ['.']
  unfold TrimSuffix
  rw [hd, if_pos hs, h]
  simp

theorem TrimSuffix_dot_of_not_suffix (s : String) (h : ¬ ['.'] <:+ s.data) :
    TrimSuffix s "." = s := by
  have hd : ".".data = ['.'] := rfl
  have hs : ¬ List.isSuffixOf ['.'] s.data = true := by
    rw [List.isSuffixOf_iff_suffix]; exact h
  unfold TrimSuffix
  rw [hd, if_neg hs]

/-! ## C10: the access `names[0]` -/

/-- C10. For every address and every outcome `net.LookupAddr` delivers (an error, or
a list of at least one name), `rDNSHost` returns: the access `names[0]` of the
success branch is in bounds. And when the address is not a live cache entry and
the resolver succeeds with first name `name0`, it returns `name0` without one
trailing dot (`found = true`) and stores that same string in the DNS cache under
the address, where a `Get` within the time-to-live finds it. -/
theorem rDNSHost_returns_given_a_name (w : Resolution) (dnsLUT : LRU) (ip : String)
    (hnames : (w.LookupAddr ip).err = none → (w.LookupAddr ip).names ≠ []) :
    (∃ r, rDNSHost w dnsLUT ip = some r) ∧
    ∀ name0 rest, ¬ dnsLUT.Live w.tGet ip → (w.LookupAddr ip).err = none →
      (w.LookupAddr ip).names = name0 :: rest →
      rDNSHost w dnsLUT ip =
        some ((TrimSuffix name0 ".", true), dnsLUT.Add w.tAdd ip (TrimSuffix name0 ".")) ∧
      (∀ t, t ≤ w.tAdd + dnsLUT.ttl →
        ((dnsLUT.Add w.tAdd ip (TrimSuffix name0 ".")).Get t ip).1 =
          some (TrimSuffix name0 ".")) ∧
      (∀ m, name0.data = m ++ ['.'] → (TrimSuffix name0 ".").data = m) ∧
      (¬ ['.'] <:+ name0.data → TrimSuffix name0 "." = name0) := by
  constructor
  · by_cases hlive : dnsLUT.Live w.tGet ip
    · obtain ⟨cacheName, _, hr⟩ := rDNSHost_of_live w dnsLUT ip hlive
      exact ⟨_, hr⟩
    · by_cases herr : (w.LookupAddr ip).err = none
      · cases hn : (w.LookupAddr ip).names with
        | nil => exact absurd hn (hnames herr)
        | cons name0 rest => exact ⟨_, rDNSHost_miss_ok w dnsLUT ip name0 rest hlive herr hn⟩
      · exact ⟨_, rDNSHost_miss_err w dnsLUT ip hlive herr⟩
  · intro name0 rest hmiss herr hn
    exact ⟨rDNSHost_miss_ok w dnsLUT ip name0 rest hmiss herr hn,
      fun t ht => LRU.get_add dnsLUT w.tAdd t ip _ ht,
      fun m hm => TrimSuffix_dot_of_suffix name0 m hm,
      fun h => TrimSuffix_dot_of_not_suffix name0 h⟩

/-- Worked example for C10: the resolver answers `edge.local.` for `10.0.0.5`. -/
theorem rDNSHost_returns_given_a_name_witness :
    rDNSHost ⟨5, fun _ => ⟨["edge.local."], none⟩, 7⟩ (NewLRU 512 (Second * 2)) "10.0.0.5" =
      some (("edge.local", true), ⟨512, 2000000000, [⟨"10.0.0.5", "edge.local", 2000000007⟩]⟩) := by
  have h := (rDNSHost_returns_given_a_name ⟨5, fun _ => ⟨["edge.local."], none⟩, 7⟩
    (NewLRU 512 (Second * 2)) "10.0.0.5" (by decide)).2 "edge.local." [] (by decide) rfl rfl
  exact h.1.trans (by decide)


theorem edgeResolver_sound : edgeResolver.Sound := by
  intro ip _; simp [edgeResolver]

theorem failingResolver_sound : failingResolver.Sound := by
  intro ip h; simp [failingResolver] at h

/-! ## C8: no negative caching -/

/-- C8. When `ip` is not a live entry of the DNS cache and the resolver call fails,
`rDNSHost ip` returns the empty string with `found = false` and the cache it was
given, unchanged. Hence a later `rDNSHost ip` is answered by the resolver again:
it fails again when the resolver does, and returns the resolved name when the
resolver succeeds. The event that triggered the lookup is still processed: the
iteration returns and the flow stored under its key, like the record printed, has
the empty display name on that side (source or destination). -/
theorem no_negative_caching (w : Resolution) (dnsLUT : LRU) (ip : String)
    (hmiss : ¬ dnsLUT.Live w.tGet ip) (hfail : (w.LookupAddr ip).err ≠ none) :
    rDNSHost w dnsLUT ip = some (("", false), dnsLUT) ∧
    (∀ w2 : Resolution, w.tGet ≤ w2.tGet →
      ((w2.LookupAddr ip).err ≠ none → rDNSHost w2 dnsLUT ip = some (("", false), dnsLUT)) ∧
      (∀ name0 rest, (w2.LookupAddr ip).err = none → (w2.LookupAddr ip).names = name0 :: rest →
        rDNSHost w2 dnsLUT ip =
          some ((TrimSuffix name0 ".", true), dnsLUT.Add w2.tAdd ip (TrimSuffix name0 ".")))) ∧
    (∀ {Addr : Type} (L : NetLib Addr) (s : State Addr) (env : IterEnv) (evt : Event Addr),
      L.IsLoopback evt.Flow.TupleOrig.IP.SourceAddress = false →
      L.AddrString evt.Flow.TupleOrig.IP.SourceAddress = ip →
      rDNSPod s.podLUT ip = none → s.dnsLUT = dnsLUT → env.src = w → env.dst.Sound →
      ∃ s1 o f, start_conntrack_iter L s env evt = some (s1, o) ∧
        s1.flows.Load (L.TupleString evt.Flow.TupleOrig) = some f ∧ f.SrcName = "" ∧
        ∀ r, o = some r → r.flow.SrcName = "") ∧
    (∀ {Addr : Type} (L : NetLib Addr) (s : State Addr) (env : IterEnv) (evt : Event Addr)
      (srcName : String),
      L.IsLoopback evt.Flow.TupleOrig.IP.SourceAddress = false →
      L.AddrString evt.Flow.TupleOrig.IP.DestinationAddress = ip →
      rDNSPod s.podLUT ip = none →
      srcNameOf env.src s.dnsLUT
        (rDNSPod s.podLUT (L.AddrString evt.Flow.TupleOrig.IP.SourceAddress))
        (L.AddrString evt.Flow.TupleOrig.IP.SourceAddress) = some (srcName, dnsLUT) →
      env.dst = w →
      ∃ s1 o f, start_conntrack_iter L s env evt = some (s1, o) ∧
        s1.flows.Load (L.TupleString evt.Flow.TupleOrig) = some f ∧ f.DstName = "" ∧
        s1.dnsLUT = dnsLUT ∧ ∀ r, o = some r → r.flow.DstName = "") := by
  refine ⟨rDNSHost_miss_err w dnsLUT ip hmiss hfail, ?_, ?_, ?_⟩
  · intro w2 ht
    have hmiss2 := LRU.not_live_later dnsLUT w.tGet w2.tGet ip hmiss ht
    exact ⟨fun herr => rDNSHost_miss_err w2 dnsLUT ip hmiss2 herr,
      fun name0 rest herr hn => rDNSHost_miss_ok w2 dnsLUT ip name0 rest hmiss2 herr hn⟩
  · intro Addr L s env evt hl hip hpod hdns hw hsound
    subst hdns hw hip
    have hs : srcNameOf env.src s.dnsLUT
        (rDNSPod s.podLUT (L.AddrString evt.Flow.TupleOrig.IP.SourceAddress))
        (L.AddrString evt.Flow.TupleOrig.IP.SourceAddress) = some ("", s.dnsLUT) := by
      rw [hpod]; simp [srcNameOf, rDNSHost_miss_err env.src s.dnsLUT _ hmiss hfail]
    obtain ⟨⟨dstName, dns2⟩, hd⟩ := dstNameOf_total env.dst hsound s.dnsLUT
      (rDNSPod s.podLUT (L.AddrString evt.Flow.TupleOrig.IP.DestinationAddress))
      (L.AddrString evt.Flow.TupleOrig.IP.DestinationAddress)
    obtain ⟨s1, o, a, hit, ha, -, -, hfl, ho⟩ :=
      iter_of_names L s env evt "" dstName s.dnsLUT dns2 hl hs hd
    have hname : a.1.SrcName = "" := by rw [ha]; exact applyEvent_srcName _ _ _ _ _ _
    refine ⟨s1, o, a.1, hit, by rw [hfl]; simp [CMap.load_store], hname, ?_⟩
    intro r hr
    rw [ho] at hr
    split at hr
    · cases hr; exact hname
    · cases hr
  · intro Addr L s env evt srcName hl hip hpod hs hw
    subst hw hip
    have hd : dstNameOf env.dst dnsLUT
        (rDNSPod s.podLUT (L.AddrString evt.Flow.TupleOrig.IP.DestinationAddress))
        (L.AddrString evt.Flow.TupleOrig.IP.DestinationAddress) = some ("", dnsLUT) := by
      rw [hpod]; simp [dstNameOf, rDNSHost_miss_err env.dst dnsLUT _ hmiss hfail]
    obtain ⟨s1, o, a, hit, ha, -, hdns, hfl, ho⟩ :=
      iter_of_names L s env evt srcName "" dnsLUT dnsLUT hl hs hd
    have hname : a.1.DstName = "" := by rw [ha]; exact applyEvent_dstName _ _ _ _ _ _
    refine ⟨s1, o, a.1, hit, by rw [hfl]; simp [CMap.load_store], hname, hdns, ?_⟩
    intro r hr
    rw [ho] at hr
    split at hr
    · cases hr; exact hname
    · cases hr

/-- Worked example for C8: a failing lookup of `10.0.0.5` on the empty cache, and the
event `10.0.0.5:443 -> 10.0.0.9:54321` processed with that failure on its source. -/
theorem no_negative_caching_witness :
    rDNSHost failingResolver (NewLRU 512 (Second * 2)) "10.0.0.5" =
        some (("", false), NewLRU 512 (Second * 2)) ∧
    ∃ s1 o f, start_conntrack_iter ipv4Lib frontendState failingEnv
        (edgeEvent EventType.EventNew) = some (s1, o) ∧
      s1.flows.Load (ipv4Lib.TupleString edgeTuple) = some f ∧ f.SrcName = "" ∧
      ∀ r, o = some r → r.flow.SrcName = "" :=
  have h := no_negative_caching failingResolver (NewLRU 512 (Second * 2)) "10.0.0.5"
    (by decide) (by decide)
  ⟨h.1, h.2.2.1 ipv4Lib frontendState failingEnv (edgeEvent EventType.EventNew)
    (by decide) (by decide) (by decide) rfl rfl failingResolver_sound⟩


/-- An iteration that returns on a non-loopback event, by parts. -/
theorem iter_inv {Addr : Type} (L : NetLib Addr) (s s1 : State Addr) (env : IterEnv)
    (evt : Event Addr) (o : Option (Record Addr))
    (hl : L.IsLoopback evt.Flow.TupleOrig.IP.SourceAddress = false)
    (h : start_conntrack_iter L s env evt = some (s1, o)) :
    ∃ srcName dstName a,
      a = applyEvent evt.Typ
        (rDNSPod s.podLUT (L.AddrString evt.Flow.TupleOrig.IP.SourceAddress)) srcName
        (rDNSPod s.podLUT (L.AddrString evt.Flow.TupleOrig.IP.DestinationAddress)) dstName
        ((s.flows.Load (L.TupleString evt.Flow.TupleOrig)).getD
          (freshFlow env.now evt.Flow.TupleOrig)) ∧
      s1.podLUT = s.podLUT ∧
      s1.flows = s.flows.Store (L.TupleString evt.Flow.TupleOrig) a.1 ∧
      o = (if a.2 then
        some ⟨L.TupleString evt.Flow.TupleOrig,
          (s.flows.Load (L.TupleString evt.Flow.TupleOrig)).isSome, a.1⟩ else none) := by
  obtain ⟨srcName, dns1, dstName, dns2, hs, hd⟩ := names_of_iter L s s1 env evt o hl h
  obtain ⟨s2, o2, a, hit, ha, hp, -, hfl, ho⟩ :=
    iter_of_names L s env evt srcName dstName dns1 dns2 hl hs hd
  rw [h] at hit
  cases hit
  exact ⟨srcName, dstName, a, ha, hp, hfl, ho⟩

/-- Under sound resolvers an iteration returns. -/
theorem iter_total {Addr : Type} (L : NetLib Addr) (s : State Addr) (env : IterEnv)
    (evt : Event Addr) (hsrc : env.src.Sound) (hdst : env.dst.Sound) :
    ∃ r, start_conntrack_iter L s env evt = some r := by
  by_cases hl : L.IsLoopback evt.Flow.TupleOrig.IP.SourceAddress = true
  · exact ⟨(s, none), by unfold start_conntrack_iter; simp [hl]⟩
  · have hl2 : L.IsLoopback evt.Flow.TupleOrig.IP.SourceAddress = false := by simpa using hl
    obtain ⟨srcName, dns1, dstName, dns2, hs, hd⟩ := names_total L s env evt hsrc hdst
    obtain ⟨s1, o, a, hit, -⟩ := iter_of_names L s env evt srcName dstName dns1 dns2 hl2 hs hd
    exact ⟨_, hit⟩

/-! ## C6: deleted workloads -/

/-- C6. After the watch handler has processed a Deleted notification for a pod with
address `A`, whatever the identity cache held before, `rDNSPod A` returns not-found.
Consequently, for the next event with destination `A`, the destination display
name of lines 109-114 is the one `rDNSHost A` returns (the DNS branch, not the
workload branch); and when the loop processes that event (its source not being
loopback), the flow stored under its key and the record printed carry that name,
the destination namespace and labels of the flow being left as they were. This
holds of every iteration that returns, and the iteration does return when every
resolver call that reports no error returns a name. -/
theorem deleted_pod_resolves_by_dns {Addr : Type} (L : NetLib Addr) (s : State Addr)
    (pod : Pod) (env : IterEnv) (evt : Event Addr)
    (hA : L.AddrString evt.Flow.TupleOrig.IP.DestinationAddress = pod.Status.PodIP) :
    rDNSPod (start_pod_informer_iter s.podLUT ⟨WatchEventType.Deleted, some pod⟩)
      pod.Status.PodIP = none ∧
    (∀ (w : Resolution) (dnsLUT : LRU),
      dstNameOf w dnsLUT
        (rDNSPod (start_pod_informer_iter s.podLUT ⟨WatchEventType.Deleted, some pod⟩)
          (L.AddrString evt.Flow.TupleOrig.IP.DestinationAddress))
        (L.AddrString evt.Flow.TupleOrig.IP.DestinationAddress) =
      (rDNSHost w dnsLUT pod.Status.PodIP).map (fun r => (r.1.1, r.2))) ∧
    (env.src.Sound → env.dst.Sound →
      ∃ r, start_conntrack_iter L
        { s with
          podLUT := start_pod_informer_iter s.podLUT ⟨WatchEventType.Deleted, some pod⟩ }
        env evt = some r) ∧
    ∀ (s1 : State Addr) (o : Option (Record Addr)),
      start_conntrack_iter L
        { s with
          podLUT := start_pod_informer_iter s.podLUT ⟨WatchEventType.Deleted, some pod⟩ }
        env evt = some (s1, o) →
      L.IsLoopback evt.Flow.TupleOrig.IP.SourceAddress = false →
      ∃ srcName dns1 name found f,
        srcNameOf env.src s.dnsLUT
          (rDNSPod (start_pod_informer_iter s.podLUT ⟨WatchEventType.Deleted, some pod⟩)
            (L.AddrString evt.Flow.TupleOrig.IP.SourceAddress))
          (L.AddrString evt.Flow.TupleOrig.IP.SourceAddress) = some (srcName, dns1) ∧
        rDNSHost env.dst dns1 pod.Status.PodIP = some ((name, found), s1.dnsLUT) ∧
        s1.flows.Load (L.TupleString evt.Flow.TupleOrig) = some f ∧
        f.DstName = name ∧
        f.DstNs = ((s.flows.Load (L.TupleString evt.Flow.TupleOrig)).getD
          (freshFlow env.now evt.Flow.TupleOrig)).DstNs ∧
        f.DstLabels = ((s.flows.Load (L.TupleString evt.Flow.TupleOrig)).getD
          (freshFlow env.now evt.Flow.TupleOrig)).DstLabels ∧
        ∀ r, o = some r → r.flow.DstName = name := by
  have hnone : rDNSPod (start_pod_informer_iter s.podLUT ⟨WatchEventType.Deleted, some pod⟩)
      pod.Status.PodIP = none := by
    simp [start_pod_informer_iter, rDNSPod, CMap.Delete]
  refine ⟨hnone, fun w dnsLUT => by rw [hA, hnone]; rfl,
    fun hsrc hdst => iter_total L _ env evt hsrc hdst, ?_⟩
  intro s1 o hit hl
  obtain ⟨srcName, dns1, dstName, dns2, hs, hd⟩ := names_of_iter L _ s1 env evt o hl hit
  obtain ⟨s2, o2, a, hit2, ha, -, hdns, hfl, ho⟩ :=
    iter_of_names L _ env evt srcName dstName dns1 dns2 hl hs hd
  rw [hit] at hit2
  cases hit2
  simp only at hs hd ha hdns hfl ho
  rw [hA, hnone] at hd ha
  have hd2 : ∃ found, rDNSHost env.dst dns1 pod.Status.PodIP = some ((dstName, found), dns2) := by
    unfold dstNameOf at hd
    rcases hr : rDNSHost env.dst dns1 pod.Status.PodIP with _ | ⟨⟨name, found⟩, d⟩
    · simp [hr] at hd
    · simp only [hr, Option.map_some', Option.some.injEq, Prod.mk.injEq] at hd
      exact ⟨found, by rw [hd.1, hd.2]⟩
  obtain ⟨found, hr⟩ := hd2
  have hname : a.1.DstName = dstName := by rw [ha]; exact applyEvent_dstName _ _ _ _ _ _
  refine ⟨srcName, dns1, dstName, found, a.1, hs, by rw [hdns]; exact hr,
    by rw [hfl]; simp [CMap.load_store], hname, ?_, ?_, ?_⟩
  · rw [ha, applyEvent_dstNs]; rfl
  · rw [ha, applyEvent_dstLabels]; rfl
  · intro r hr2
    rw [ho] at hr2
    split at hr2
    · cases hr2; exact hname
    · cases hr2

/-- Worked example for C6: `web/frontend` at `10.0.0.9` is added, then deleted, and a new
connection to `10.0.0.9` arrives: the destination is named by the resolver. -/
theorem deleted_pod_resolves_by_dns_witness :
    rDNSPod (start_pod_informer_iter frontendState.podLUT
      ⟨WatchEventType.Deleted, some frontendPod⟩) "10.0.0.9" = none ∧
    ∃ s1 r, start_conntrack_iter ipv4Lib
        { frontendState with
          podLUT := start_pod_informer_iter frontendState.podLUT
            ⟨WatchEventType.Deleted, some frontendPod⟩ }
        edgeEnv (edgeEvent EventType.EventNew) = some (s1, some r) ∧
      r.flow.DstName = "edge.local" ∧ r.flow.DstNs = "" := by
  have h := deleted_pod_resolves_by_dns ipv4Lib frontendState frontendPod edgeEnv
    (edgeEvent EventType.EventNew) (by decide)
  refine ⟨h.1, _, _, rfl, ?_, ?_⟩ <;> decide

/-! ## C5: the first-sight record -/

/-- C5, as the code has it. A new-connection event with protocol number 6 and a
source address that is not loopback, on a key not yet in the flow table, whose
source is not in the identity cache and is resolved to `h` by `rDNSHost`, and whose
destination is in the identity cache, prints exactly one record, with `Proto` "TCP",
`SrcName = h`, empty `SrcNs`, `DstNs` the namespace of the pod, `DstName` the
namespace, a colon and the name of the pod, `New = true`, `Update = false` and
`Cnt = 1`; that record is the flow stored under the key. And when the source is a
workload its `SrcName` is the bare pod name. -/
theorem first_sight_record {Addr : Type} (L : NetLib Addr) (s : State Addr) (env : IterEnv)
    (evt : Event Addr) (h : String) (dns1 : LRU) (pod : Pod)
    (hl : L.IsLoopback evt.Flow.TupleOrig.IP.SourceAddress = false)
    (htyp : evt.Typ = EventType.EventNew)
    (hproto : evt.Flow.TupleOrig.Proto.Protocol = 6)
    (hnew : s.flows.Load (L.TupleString evt.Flow.TupleOrig) = none)
    (hsrc : rDNSPod s.podLUT (L.AddrString evt.Flow.TupleOrig.IP.SourceAddress) = none)
    (hres : rDNSHost env.src s.dnsLUT (L.AddrString evt.Flow.TupleOrig.IP.SourceAddress) =
      some ((h, true), dns1))
    (hdst : rDNSPod s.podLUT (L.AddrString evt.Flow.TupleOrig.IP.DestinationAddress) =
      some pod) :
    (∃ s1 r, start_conntrack_iter L s env evt = some (s1, some r) ∧
      s1.flows.Load (L.TupleString evt.Flow.TupleOrig) = some r.flow ∧
      r.flowKey = L.TupleString evt.Flow.TupleOrig ∧ r.existingFlow = false ∧
      r.flow.Proto = "TCP" ∧ r.flow.SrcName = h ∧ r.flow.SrcNs = "" ∧
      r.flow.DstNs = pod.Namespace ∧ r.flow.DstName = pod.Namespace ++ ":" ++ pod.Name ∧
      r.flow.New = true ∧ r.flow.Update = false ∧ r.flow.Cnt = 1) ∧
    (∀ (s2 : State Addr) (env2 : IterEnv) (evt2 : Event Addr) (srcPod : Pod),
      L.IsLoopback evt2.Flow.TupleOrig.IP.SourceAddress = false →
      rDNSPod s2.podLUT (L.AddrString evt2.Flow.TupleOrig.IP.SourceAddress) = some srcPod →
      env2.dst.Sound →
      ∃ s3 o f, start_conntrack_iter L s2 env2 evt2 = some (s3, o) ∧
        s3.flows.Load (L.TupleString evt2.Flow.TupleOrig) = some f ∧
        f.SrcName = srcPod.Name ∧ ∀ r, o = some r → r.flow.SrcName = srcPod.Name) := by
  constructor
  · have hs : srcNameOf env.src s.dnsLUT
        (rDNSPod s.podLUT (L.AddrString evt.Flow.TupleOrig.IP.SourceAddress))
        (L.AddrString evt.Flow.TupleOrig.IP.SourceAddress) = some (h, dns1) := by
      rw [hsrc]; simp [srcNameOf, hres]
    have hd : dstNameOf env.dst dns1
        (rDNSPod s.podLUT (L.AddrString evt.Flow.TupleOrig.IP.DestinationAddress))
        (L.AddrString evt.Flow.TupleOrig.IP.DestinationAddress) =
          some (pod.Namespace ++ ":" ++ pod.Name, dns1) := by
      rw [hdst]; rfl
    obtain ⟨s1, o, a, hit, ha, -, -, hfl, ho⟩ :=
      iter_of_names L s env evt h (pod.Namespace ++ ":" ++ pod.Name) dns1 dns1 hl hs hd
    rw [hsrc, hdst, hnew, htyp] at ha
    have ha2 : a.2 = true := by rw [ha]; rfl
    rw [ha2, hnew] at ho
    simp only [if_true, Option.isSome_none] at ho
    subst ho
    refine ⟨s1, _, hit, by rw [hfl]; simp [CMap.load_store], rfl, rfl, ?_⟩
    subst ha
    simp [applyEvent, markEvent, enrichSrc, enrichDst, bumpCnt, freshFlow, protoStrOf, hproto]
  · intro s2 env2 evt2 srcPod hl2 hpod hsound
    have hs : srcNameOf env2.src s2.dnsLUT
        (rDNSPod s2.podLUT (L.AddrString evt2.Flow.TupleOrig.IP.SourceAddress))
        (L.AddrString evt2.Flow.TupleOrig.IP.SourceAddress) = some (srcPod.Name, s2.dnsLUT) := by
      rw [hpod]; rfl
    obtain ⟨⟨dstName, dns2⟩, hd⟩ := dstNameOf_total env2.dst hsound s2.dnsLUT
      (rDNSPod s2.podLUT (L.AddrString evt2.Flow.TupleOrig.IP.DestinationAddress))
      (L.AddrString evt2.Flow.TupleOrig.IP.DestinationAddress)
    obtain ⟨s3, o, a, hit, ha, -, -, hfl, ho⟩ :=
      iter_of_names L s2 env2 evt2 srcPod.Name dstName s2.dnsLUT dns2 hl2 hs hd
    have hname : a.1.SrcName = srcPod.Name := by rw [ha]; exact applyEvent_srcName _ _ _ _ _ _
    refine ⟨s3, o, a.1, hit, by rw [hfl]; simp [CMap.load_store], hname, ?_⟩
    intro r hr
    rw [ho] at hr
    split at hr
    · cases hr; exact hname
    · cases hr

/-- Worked example for C5, the scenario of the specification: a new TCP connection
`10.0.0.5:443 -> 10.0.0.9:54321`, the source resolving to `edge.local`, the
destination being the workload `web/frontend`. -/
theorem first_sight_record_witness :
    ∃ s1 r, start_conntrack_iter ipv4Lib frontendState edgeEnv (edgeEvent EventType.EventNew) =
        some (s1, some r) ∧
      r.flow.Proto = "TCP" ∧ r.flow.SrcName = "edge.local" ∧ r.flow.SrcNs = "" ∧
      r.flow.DstNs = "web" ∧ r.flow.DstName = "web:frontend" ∧
      r.flow.New = true ∧ r.flow.Update = false ∧ r.flow.Cnt = 1 := by
  obtain ⟨s1, r, h1, -, -, -, h2, h3, h4, h5, h6, h7, h8, h9⟩ :=
    (first_sight_record ipv4Lib frontendState edgeEnv (edgeEvent EventType.EventNew)
      "edge.local" ⟨512, 2000000000, [⟨"10.0.0.5", "edge.local", 2000000000⟩]⟩ frontendPod
      (by decide) rfl rfl (by decide) (by decide) (by decide) (by decide)).1
  exact ⟨s1, r, h1, h2, h3, h4, h5, h6, h7, h8, h9⟩

/-- C5 fails as stated when the source is a loopback address: the new TCP connection
`127.0.0.1:443 -> 10.0.0.9:54321` meets every stated condition (key not in
the table, source not in the identity cache and resolved to `localhost`,
destination the workload `web/frontend`), and the loop prints no record. -/
theorem first_sight_record_loopback_counterexample :
    loopbackEvent.Typ = EventType.EventNew ∧
    loopbackEvent.Flow.TupleOrig.Proto.Protocol = 6 ∧
    frontendState.flows.Load (ipv4Lib.TupleString loopbackEvent.Flow.TupleOrig) = none ∧
    rDNSPod frontendState.podLUT
      (ipv4Lib.AddrString loopbackEvent.Flow.TupleOrig.IP.SourceAddress) = none ∧
    (rDNSHost localhostResolver frontendState.dnsLUT
      (ipv4Lib.AddrString loopbackEvent.Flow.TupleOrig.IP.SourceAddress)).map (fun r => r.1) =
      some ("localhost", true) ∧
    rDNSPod frontendState.podLUT
      (ipv4Lib.AddrString loopbackEvent.Flow.TupleOrig.IP.DestinationAddress) =
      some frontendPod ∧
    start_conntrack_iter ipv4Lib frontendState ⟨localhostResolver, localhostResolver, 0⟩
      loopbackEvent = some (frontendState, none) := by
  refine ⟨rfl, rfl, by decide, by decide, by decide, by decide, rfl⟩


/-! ## Runs of the loop -/

theorem run_cons {Addr : Type} (L : NetLib Addr) (s s1 : State Addr) (i : Input Addr)
    (rest : List (Input Addr)) (outs : List (Option (Record Addr)))
    (h : run L s (i :: rest) = some (s1, outs)) :
    ∃ s2 o os, handle L s i = some (s2, o) ∧ run L s2 rest = some (s1, os) ∧ outs = o :: os := by
  unfold run at h
  rcases h1 : handle L s i with _ | ⟨s2, o⟩
  · simp [h1] at h
  · rcases h2 : run L s2 rest with _ | ⟨s3, os⟩
    · simp [h1, h2] at h
    · simp only [h1, h2, Option.some.injEq, Prod.mk.injEq] at h
      exact ⟨s2, o, os, rfl, by rw [h2, h.1], h.2.symm⟩

/-- Under sound resolvers the loop processes every sequence of events. -/
theorem loop_total {Addr : Type} (L : NetLib Addr) (evs : List (IterEnv × Event Addr)) :
    ∀ s : State Addr, (∀ p ∈ evs, p.1.src.Sound ∧ p.1.dst.Sound) →
      ∃ r, start_conntrack_loop L s evs = some r := by
  induction evs with
  | nil => intro s _; exact ⟨_, rfl⟩
  | cons p rest ih =>
    intro s hs
    obtain ⟨⟨s2, o⟩, h1⟩ := iter_total L s p.1 p.2 (hs p (List.mem_cons_self _ _)).1
      (hs p (List.mem_cons_self _ _)).2
    obtain ⟨⟨s3, os⟩, h2⟩ := ih s2 (fun q hq => hs q (List.mem_cons_of_mem _ hq))
    refine ⟨(s3, o :: os), ?_⟩
    unfold start_conntrack_loop at h2 ⊢
    simp only [List.map_cons, run, handle, h1, h2]

/-- One iteration on a non-loopback event of key `k`: the flow stored under `k`
afterwards and the publish decision, in terms of what was stored before. -/
theorem iter_on_key {Addr : Type} (L : NetLib Addr) (s s1 : State Addr) (env : IterEnv)
    (evt : Event Addr) (o : Option (Record Addr)) (k : String)
    (hl : L.IsLoopback evt.Flow.TupleOrig.IP.SourceAddress = false)
    (hk : L.TupleString evt.Flow.TupleOrig = k)
    (h : start_conntrack_iter L s env evt = some (s1, o)) :
    ∃ f, s1.flows.Load k = some f ∧
      (o.isSome = true ↔ (evt.Typ ≠ EventType.EventUpdate ∨ s.seenUpdate k = false)) ∧
      f.Update = (s.seenUpdate k || decide (evt.Typ = EventType.EventUpdate)) ∧
      f.New = (s.seenNew k || decide (evt.Typ = EventType.EventNew)) ∧
      f.Cnt = (s.storedCnt k + 1) % 2 ^ 32 := by
  obtain ⟨srcName, dstName, a, ha, -, hfl, ho⟩ := iter_inv L s s1 env evt o hl h
  rw [hk] at ha hfl ho
  refine ⟨a.1, by rw [hfl]; simp [CMap.load_store], ?_, ?_, ?_, ?_⟩
  · have hp := applyEvent_publish evt.Typ
      (rDNSPod s.podLUT (L.AddrString evt.Flow.TupleOrig.IP.SourceAddress)) srcName
      (rDNSPod s.podLUT (L.AddrString evt.Flow.TupleOrig.IP.DestinationAddress)) dstName
      ((s.flows.Load k).getD (freshFlow env.now evt.Flow.TupleOrig))
    rw [← ha] at hp
    have hu : ((s.flows.Load k).getD (freshFlow env.now evt.Flow.TupleOrig)).Update =
        s.seenUpdate k := by
      unfold State.seenUpdate; cases s.flows.Load k <;> rfl
    rw [hu] at hp
    rw [ho, ← hp]
    cases a.2 <;> simp
  · rw [ha, applyEvent_update]
    congr 1
    unfold State.seenUpdate; cases s.flows.Load k <;> rfl
  · rw [ha, applyEvent_new]
    congr 1
    unfold State.seenNew; cases s.flows.Load k <;> rfl
  · rw [ha, applyEvent_cnt]
    congr 2
    unfold State.storedCnt; cases s.flows.Load k <;> rfl


theorem loop_cons {Addr : Type} (L : NetLib Addr) (s s1 : State Addr)
    (p : IterEnv × Event Addr) (rest : List (IterEnv × Event Addr))
    (outs : List (Option (Record Addr)))
    (h : start_conntrack_loop L s (p :: rest) = some (s1, outs)) :
    ∃ s2 o os, start_conntrack_iter L s p.1 p.2 = some (s2, o) ∧
      start_conntrack_loop L s2 rest = some (s1, os) ∧ outs = o :: os := by
  unfold start_conntrack_loop at h ⊢
  rw [List.map_cons] at h
  exact run_cons L s s1 _ _ outs h

/-- The publish decisions along a sequence of non-loopback events of key `k`, from any
state. -/
theorem loop_publish {Addr : Type} (L : NetLib Addr) (k : String)
    (evs : List (IterEnv × Event Addr)) :
    ∀ (s s1 : State Addr) (outs : List (Option (Record Addr))),
      (∀ p ∈ evs, L.IsLoopback p.2.Flow.TupleOrig.IP.SourceAddress = false) →
      (∀ p ∈ evs, L.TupleString p.2.Flow.TupleOrig = k) →
      start_conntrack_loop L s evs = some (s1, outs) →
      outs.length = evs.length ∧
      ∀ (i : Nat) (p : IterEnv × Event Addr), evs[i]? = some p →
        ∃ o : Option (Record Addr), outs[i]? = some o ∧
        (o.isSome = true ↔ (p.2.Typ ≠ EventType.EventUpdate ∨
          (s.seenUpdate k = false ∧
            ∀ (j : Nat) (q : IterEnv × Event Addr), j < i → evs[j]? = some q →
              q.2.Typ ≠ EventType.EventUpdate))) := by
  induction evs with
  | nil =>
    intro s s1 outs _ _ h
    have : outs = [] := by
      have h2 : some (s, ([] : List (Option (Record Addr)))) = some (s1, outs) := h
      cases h2; rfl
    subst this
    exact ⟨rfl, fun i p hp => by simp at hp⟩
  | cons p0 rest ih =>
    intro s s1 outs hl hk h
    obtain ⟨s2, o0, os, hit, hrest, houts⟩ := loop_cons L s s1 p0 rest outs h
    subst houts
    obtain ⟨f, hf, hpub, hupd, -, -⟩ := iter_on_key L s s2 p0.1 p0.2 o0 k
      (hl p0 (List.mem_cons_self _ _)) (hk p0 (List.mem_cons_self _ _)) hit
    obtain ⟨hlen, hidx⟩ := ih s2 s1 os (fun q hq => hl q (List.mem_cons_of_mem _ hq))
      (fun q hq => hk q (List.mem_cons_of_mem _ hq)) hrest
    have hseen : s2.seenUpdate k = (s.seenUpdate k || decide (p0.2.Typ = EventType.EventUpdate)) := by
      rw [← hupd]; unfold State.seenUpdate; rw [hf]; rfl
    refine ⟨by simp [hlen], ?_⟩
    intro i p hp
    cases i with
    | zero =>
      simp only [List.getElem?_cons_zero, Option.some.injEq] at hp
      subst hp
      refine ⟨o0, by simp, ?_⟩
      rw [hpub]
      constructor
      · rintro (h1 | h1)
        · exact Or.inl h1
        · exact Or.inr ⟨h1, fun j q hj _ => absurd hj (Nat.not_lt_zero j)⟩
      · rintro (h1 | ⟨h1, -⟩)
        · exact Or.inl h1
        · exact Or.inr h1
    | succ i =>
      simp only [List.getElem?_cons_succ] at hp
      obtain ⟨o, ho, hiff⟩ := hidx i p hp
      refine ⟨o, by simpa using ho, ?_⟩
      rw [hiff, hseen]
      constructor
      · rintro (h1 | ⟨h1, h2⟩)
        · exact Or.inl h1
        · right
          simp only [Bool.or_eq_false_iff, decide_eq_false_iff_not] at h1
          refine ⟨h1.1, fun j q hj hq => ?_⟩
          cases j with
          | zero =>
            simp only [List.getElem?_cons_zero, Option.some.injEq] at hq
            subst hq; exact h1.2
          | succ j =>
            simp only [List.getElem?_cons_succ] at hq
            exact h2 j q (Nat.lt_of_succ_lt_succ hj) hq
      · rintro (h1 | ⟨h1, h2⟩)
        · exact Or.inl h1
        · right
          refine ⟨?_, fun j q hj hq => h2 (j + 1) q (Nat.succ_lt_succ hj) (by simpa using hq)⟩
          simp only [Bool.or_eq_false_iff, decide_eq_false_iff_not]
          exact ⟨h1, h2 0 p0 (Nat.succ_pos i) (by simp)⟩

/-- The event counter along a sequence of non-loopback events of key `k`, from any
state. -/
theorem loop_cnt {Addr : Type} (L : NetLib Addr) (k : String)
    (evs : List (IterEnv × Event Addr)) :
    ∀ (s s1 : State Addr) (outs : List (Option (Record Addr))),
      (∀ p ∈ evs, L.IsLoopback p.2.Flow.TupleOrig.IP.SourceAddress = false) →
      (∀ p ∈ evs, L.TupleString p.2.Flow.TupleOrig = k) →
      start_conntrack_loop L s evs = some (s1, outs) →
      s1.storedCnt k % 2 ^ 32 = (s.storedCnt k + evs.length) % 2 ^ 32 ∧
      (evs ≠ [] → ∃ f, s1.flows.Load k = some f ∧ f.Cnt < 2 ^ 32) := by
  induction evs with
  | nil =>
    intro s s1 outs _ _ h
    have h2 : some (s, ([] : List (Option (Record Addr)))) = some (s1, outs) := h
    cases h2
    exact ⟨rfl, fun h => absurd rfl h⟩
  | cons p0 rest ih =>
    intro s s1 outs hl hk h
    obtain ⟨s2, o0, os, hit, hrest, -⟩ := loop_cons L s s1 p0 rest outs h
    obtain ⟨f, hf, -, -, -, hcnt⟩ := iter_on_key L s s2 p0.1 p0.2 o0 k
      (hl p0 (List.mem_cons_self _ _)) (hk p0 (List.mem_cons_self _ _)) hit
    obtain ⟨hmod, hex⟩ := ih s2 s1 os (fun q hq => hl q (List.mem_cons_of_mem _ hq))
      (fun q hq => hk q (List.mem_cons_of_mem _ hq)) hrest
    have hs2 : s2.storedCnt k = (s.storedCnt k + 1) % 2 ^ 32 := by
      rw [← hcnt]; unfold State.storedCnt; rw [hf]; rfl
    constructor
    · rw [hmod, hs2, List.length_cons]
      omega
    · intro _
      cases rest with
      | nil =>
        have h2 : some (s2, ([] : List (Option (Record Addr)))) = some (s1, os) := hrest
        cases h2
        exact ⟨f, hf, by rw [hcnt]; exact Nat.mod_lt _ (by norm_num)⟩
      | cons q rest2 => exact hex (by simp)


theorem seenUpdate_of_absent {Addr : Type} (s : State Addr) (k : String)
    (h : s.flows.Load k = none) : s.seenUpdate k = false := by
  unfold State.seenUpdate; rw [h]; rfl

theorem storedCnt_of_absent {Addr : Type} (s : State Addr) (k : String)
    (h : s.flows.Load k = none) : s.storedCnt k = 0 := by
  unfold State.storedCnt; rw [h]; rfl

/-- The counter after a non-empty sequence of non-loopback events of key `k` processed
from a table without `k`. -/
theorem loop_cnt_fresh {Addr : Type} (L : NetLib Addr) (k : String) (s s1 : State Addr)
    (evs : List (IterEnv × Event Addr)) (outs : List (Option (Record Addr)))
    (hnew : s.flows.Load k = none)
    (hl : ∀ p ∈ evs, L.IsLoopback p.2.Flow.TupleOrig.IP.SourceAddress = false)
    (hk : ∀ p ∈ evs, L.TupleString p.2.Flow.TupleOrig = k)
    (hne : evs ≠ [])
    (h : start_conntrack_loop L s evs = some (s1, outs)) :
    ∃ f, s1.flows.Load k = some f ∧ f.Cnt = evs.length % 2 ^ 32 := by
  obtain ⟨hmod, hex⟩ := loop_cnt L k evs s s1 outs hl hk h
  obtain ⟨f, hf, hlt⟩ := hex hne
  refine ⟨f, hf, ?_⟩
  have h1 : s1.storedCnt k = f.Cnt := by unfold State.storedCnt; rw [hf]; rfl
  rw [h1, storedCnt_of_absent s k hnew, Nat.zero_add, Nat.mod_eq_of_lt hlt] at hmod
  exact hmod

/-! ## C1: the publish decision -/

/-- C1. For every sequence of non-loopback events that share the flow key `k`,
processed from a flow table that does not hold `k`: the loop prints, for the i-th
event, a record if and only if the kind of that event is not `EventUpdate` or no
earlier event of the sequence is an `EventUpdate`. In particular the kinds
new, update, update, update print a record for the first and for the second event
and nothing for the third and the fourth. (The loop does process the sequence
whenever every resolver call that reports no error returns a name.) -/
theorem publish_decision {Addr : Type} (L : NetLib Addr) (k : String) (s : State Addr)
    (evs : List (IterEnv × Event Addr))
    (hnew : s.flows.Load k = none)
    (hl : ∀ p ∈ evs, L.IsLoopback p.2.Flow.TupleOrig.IP.SourceAddress = false)
    (hk : ∀ p ∈ evs, L.TupleString p.2.Flow.TupleOrig = k) :
    ((∀ p ∈ evs, p.1.src.Sound ∧ p.1.dst.Sound) →
      ∃ r, start_conntrack_loop L s evs = some r) ∧
    ∀ (s1 : State Addr) (outs : List (Option (Record Addr))),
      start_conntrack_loop L s evs = some (s1, outs) →
      outs.length = evs.length ∧
      (∀ (i : Nat) (p : IterEnv × Event Addr), evs[i]? = some p →
        ∃ o : Option (Record Addr), outs[i]? = some o ∧
          (o.isSome = true ↔ (p.2.Typ ≠ EventType.EventUpdate ∨
            ∀ (j : Nat) (q : IterEnv × Event Addr), j < i → evs[j]? = some q →
              q.2.Typ ≠ EventType.EventUpdate))) ∧
      (evs.map (fun p => p.2.Typ) = [EventType.EventNew, EventType.EventUpdate,
          EventType.EventUpdate, EventType.EventUpdate] →
        ∃ r1 r2, outs = [some r1, some r2, none, none]) := by
  refine ⟨fun hs => loop_total L evs s hs, ?_⟩
  intro s1 outs h
  obtain ⟨hlen, hidx⟩ := loop_publish L k evs s s1 outs hl hk h
  have hidx2 : ∀ (i : Nat) (p : IterEnv × Event Addr), evs[i]? = some p →
      ∃ o : Option (Record Addr), outs[i]? = some o ∧
        (o.isSome = true ↔ (p.2.Typ ≠ EventType.EventUpdate ∨
          ∀ (j : Nat) (q : IterEnv × Event Addr), j < i → evs[j]? = some q →
            q.2.Typ ≠ EventType.EventUpdate)) := by
    intro i p hp
    obtain ⟨o, ho, hiff⟩ := hidx i p hp
    refine ⟨o, ho, hiff.trans ?_⟩
    simp [seenUpdate_of_absent s k hnew]
  refine ⟨hlen, hidx2, ?_⟩
  intro hkinds
  rcases evs with _ | ⟨p0, _ | ⟨p1, _ | ⟨p2, _ | ⟨p3, _ | ⟨p4, rest⟩⟩⟩⟩⟩ <;>
    simp at hkinds
  obtain ⟨h0, h1, h2, h3⟩ := hkinds
  rcases outs with _ | ⟨o0, _ | ⟨o1, _ | ⟨o2, _ | ⟨o3, _ | ⟨o4, orest⟩⟩⟩⟩⟩ <;>
    simp at hlen
  obtain ⟨a0, ha0, hi0⟩ := hidx2 0 p0 rfl
  obtain ⟨a1, ha1, hi1⟩ := hidx2 1 p1 rfl
  obtain ⟨a2, ha2, hi2⟩ := hidx2 2 p2 rfl
  obtain ⟨a3, ha3, hi3⟩ := hidx2 3 p3 rfl
  simp only [List.getElem?_cons_zero, List.getElem?_cons_succ, Option.some.injEq] at ha0 ha1 ha2 ha3
  subst ha0 ha1 ha2 ha3
  have e0 : o0.isSome = true := hi0.2 (Or.inl (by rw [h0]; decide))
  have e1 : o1.isSome = true := by
    refine hi1.2 (Or.inr ?_)
    intro j q hj hq
    have : j = 0 := by omega
    subst this
    simp only [List.getElem?_cons_zero, Option.some.injEq] at hq
    subst hq; rw [h0]; decide
  have e2 : o2 = none := by
    cases o2 with
    | none => rfl
    | some r =>
      rcases hi2.1 rfl with h | h
      · exact absurd h2 h
      · exact absurd h1 (h 1 p1 (by omega) rfl)
  have e3 : o3 = none := by
    cases o3 with
    | none => rfl
    | some r =>
      rcases hi3.1 rfl with h | h
      · exact absurd h3 h
      · exact absurd h1 (h 1 p1 (by omega) rfl)
  obtain ⟨r1, hr1⟩ := Option.isSome_iff_exists.mp e0
  obtain ⟨r2, hr2⟩ := Option.isSome_iff_exists.mp e1
  exact ⟨r1, r2, by rw [hr1, hr2, e2, e3]⟩

/-- Worked example for C1: the kinds new, update, update, update on the tuple
`10.0.0.5:443 -> 10.0.0.9:54321`. -/
theorem publish_decision_witness :
    ∃ s1 r1 r2, start_conntrack_loop ipv4Lib frontendState
      [(edgeEnv, edgeEvent EventType.EventNew), (edgeEnv, edgeEvent EventType.EventUpdate),
       (edgeEnv, edgeEvent EventType.EventUpdate), (edgeEnv, edgeEvent EventType.EventUpdate)] =
      some (s1, [some r1, some r2, none, none]) := by
  have h := publish_decision ipv4Lib (ipv4Lib.TupleString edgeTuple) frontendState
    [(edgeEnv, edgeEvent EventType.EventNew), (edgeEnv, edgeEvent EventType.EventUpdate),
     (edgeEnv, edgeEvent EventType.EventUpdate), (edgeEnv, edgeEvent EventType.EventUpdate)]
    (by decide) (by decide) (by decide)
  obtain ⟨⟨s1, outs⟩, hr⟩ := h.1 (by
    intro p hp
    simp only [List.mem_cons, List.mem_singleton, List.not_mem_nil, or_false] at hp
    rcases hp with rfl | rfl | rfl | rfl <;> exact ⟨edgeResolver_sound, edgeResolver_sound⟩)
  obtain ⟨r1, r2, ho⟩ := (h.2 s1 outs hr).2.2 rfl
  exact ⟨s1, r1, r2, by rw [hr, ho]⟩

/-! ## C2: the event counter -/

/-- C2, as the code has it. After a sequence of `N >= 1` non-loopback events that share
the flow key `k`, processed from a flow table that does not hold `k`, the flow
stored under `k` has `Cnt = N mod 2^32` (`Cnt` is a `uint32`), which is `N` as long
as `N < 2^32`; events whose record is suppressed are counted as well. After the
empty sequence the table still does not hold `k`. (The loop does process the
sequence whenever every resolver call that reports no error returns a name.) -/
theorem event_counter {Addr : Type} (L : NetLib Addr) (k : String) (s : State Addr)
    (evs : List (IterEnv × Event Addr))
    (hnew : s.flows.Load k = none)
    (hl : ∀ p ∈ evs, L.IsLoopback p.2.Flow.TupleOrig.IP.SourceAddress = false)
    (hk : ∀ p ∈ evs, L.TupleString p.2.Flow.TupleOrig = k) :
    ((∀ p ∈ evs, p.1.src.Sound ∧ p.1.dst.Sound) →
      ∃ r, start_conntrack_loop L s evs = some r) ∧
    ∀ (s1 : State Addr) (outs : List (Option (Record Addr))),
      start_conntrack_loop L s evs = some (s1, outs) →
      (evs ≠ [] → ∃ f, s1.flows.Load k = some f ∧ f.Cnt = evs.length % 2 ^ 32 ∧
        (evs.length < 2 ^ 32 → f.Cnt = evs.length)) ∧
      (evs = [] → s1.flows.Load k = none) := by
  refine ⟨fun hs => loop_total L evs s hs, ?_⟩
  intro s1 outs h
  constructor
  · intro hne
    obtain ⟨f, hf, hc⟩ := loop_cnt_fresh L k s s1 evs outs hnew hl hk hne h
    exact ⟨f, hf, hc, fun hlt => by rw [hc, Nat.mod_eq_of_lt hlt]⟩
  · intro he
    subst he
    have h2 : some (s, ([] : List (Option (Record Addr)))) = some (s1, outs) := h
    cases h2
    exact hnew

/-- Worked example for C2: three events (new, update, update) on one key; the
third is suppressed and still counted. -/
theorem event_counter_witness :
    ∃ s1 r1 r2 f, start_conntrack_loop ipv4Lib frontendState
      [(edgeEnv, edgeEvent EventType.EventNew), (edgeEnv, edgeEvent EventType.EventUpdate),
       (edgeEnv, edgeEvent EventType.EventUpdate)] = some (s1, [some r1, some r2, none]) ∧
      s1.flows.Load (ipv4Lib.TupleString edgeTuple) = some f ∧ f.Cnt = 3 := by
  have h := event_counter ipv4Lib (ipv4Lib.TupleString edgeTuple) frontendState
    [(edgeEnv, edgeEvent EventType.EventNew), (edgeEnv, edgeEvent EventType.EventUpdate),
     (edgeEnv, edgeEvent EventType.EventUpdate)]
    (by decide) (by decide) (by decide)
  obtain ⟨f, hf, -, hc⟩ := (h.2 _ _ rfl).1 (List.cons_ne_nil _ _)
  exact ⟨_, _, _, f, rfl, hf, hc (by decide)⟩

/-- C2 fails as stated once the counter wraps: after `2^32` new-connection events on
the tuple `10.0.0.5:443 -> 10.0.0.9:54321` the stored flow has `Cnt = 0`, not
`2^32`. -/
theorem event_counter_wraps_counterexample :
    ∃ s1 outs f, start_conntrack_loop ipv4Lib frontendState
        (List.replicate 4294967296 (edgeEnv, edgeEvent EventType.EventNew)) = some (s1, outs) ∧
      s1.flows.Load (ipv4Lib.TupleString edgeTuple) = some f ∧ f.Cnt = 0 ∧
      (List.replicate 4294967296 (edgeEnv, edgeEvent EventType.EventNew)).length =
        4294967296 := by
  have hmem : ∀ p ∈ List.replicate 4294967296 (edgeEnv, edgeEvent EventType.EventNew),
      p = (edgeEnv, edgeEvent EventType.EventNew) := fun p hp => List.eq_of_mem_replicate hp
  obtain ⟨⟨s1, outs⟩, hr⟩ := loop_total ipv4Lib
    (List.replicate 4294967296 (edgeEnv, edgeEvent EventType.EventNew)) frontendState
    (fun p hp => by rw [hmem p hp]; exact ⟨edgeResolver_sound, edgeResolver_sound⟩)
  obtain ⟨f, hf, hc⟩ := loop_cnt_fresh ipv4Lib (ipv4Lib.TupleString edgeTuple) frontendState s1
    (List.replicate 4294967296 (edgeEnv, edgeEvent EventType.EventNew)) outs
    (by decide) (fun p hp => by rw [hmem p hp]; decide) (fun p hp => by rw [hmem p hp]; rfl)
    (fun h => by
      have := congrArg List.length h
      rw [List.length_replicate] at this
      exact absurd this (by decide)) hr
  rw [List.length_replicate] at hc
  exact ⟨s1, outs, f, hr, hf, hc, List.length_replicate _ _⟩


/-! ## C9: the flags `New` and `Update` -/

/-- The effect of one input on the flags stored under a key. -/
theorem handle_flags {Addr : Type} (L : NetLib Addr) (s s1 : State Addr) (i : Input Addr)
    (o : Option (Record Addr)) (h : handle L s i = some (s1, o)) (k : String) :
    ((s.flows.Load k).isSome = true → (s1.flows.Load k).isSome = true) ∧
    (s1.seenNew k = true ↔ (s.seenNew k = true ∨ ∃ env evt, i = Input.conntrack env evt ∧
      L.IsLoopback evt.Flow.TupleOrig.IP.SourceAddress = false ∧
      L.TupleString evt.Flow.TupleOrig = k ∧ evt.Typ = EventType.EventNew)) ∧
    (s1.seenUpdate k = true ↔ (s.seenUpdate k = true ∨ ∃ env evt, i = Input.conntrack env evt ∧
      L.IsLoopback evt.Flow.TupleOrig.IP.SourceAddress = false ∧
      L.TupleString evt.Flow.TupleOrig = k ∧ evt.Typ = EventType.EventUpdate)) := by
  cases i with
  | watch event =>
    simp only [handle, Option.some.injEq, Prod.mk.injEq] at h
    obtain ⟨hs, -⟩ := h
    subst hs
    refine ⟨fun hx => hx, ?_, ?_⟩
    · constructor
      · intro hx; exact Or.inl hx
      · rintro (hx | ⟨env, evt, hi, -⟩)
        · exact hx
        · cases hi
    · constructor
      · intro hx; exact Or.inl hx
      · rintro (hx | ⟨env, evt, hi, -⟩)
        · exact hx
        · cases hi
  | conntrack env evt =>
    simp only [handle] at h
    by_cases hl : L.IsLoopback evt.Flow.TupleOrig.IP.SourceAddress = true
    · have hs : s1 = s := by
        unfold start_conntrack_iter at h
        simp only [hl, if_true, Option.some.injEq, Prod.mk.injEq] at h
        exact h.1.symm
      subst hs
      refine ⟨fun hx => hx, ?_, ?_⟩
      · constructor
        · intro hx; exact Or.inl hx
        · rintro (hx | ⟨env2, evt2, hi, hl2, -⟩)
          · exact hx
          · cases hi; rw [hl] at hl2; cases hl2
      · constructor
        · intro hx; exact Or.inl hx
        · rintro (hx | ⟨env2, evt2, hi, hl2, -⟩)
          · exact hx
          · cases hi; rw [hl] at hl2; cases hl2
    · have hl2 : L.IsLoopback evt.Flow.TupleOrig.IP.SourceAddress = false := by simpa using hl
      by_cases hk : L.TupleString evt.Flow.TupleOrig = k
      · obtain ⟨f, hf, -, hupd, hnw, -⟩ := iter_on_key L s s1 env evt o k hl2 hk h
        have e1 : s1.seenNew k = f.New := by unfold State.seenNew; rw [hf]; rfl
        have e2 : s1.seenUpdate k = f.Update := by unfold State.seenUpdate; rw [hf]; rfl
        refine ⟨fun _ => by rw [hf]; rfl, ?_, ?_⟩
        · rw [e1, hnw]
          simp only [Bool.or_eq_true, decide_eq_true_eq]
          constructor
          · rintro (hx | hx)
            · exact Or.inl hx
            · exact Or.inr ⟨env, evt, rfl, hl2, hk, hx⟩
          · rintro (hx | ⟨env2, evt2, hi, -, -, ht⟩)
            · exact Or.inl hx
            · cases hi; exact Or.inr ht
        · rw [e2, hupd]
          simp only [Bool.or_eq_true, decide_eq_true_eq]
          constructor
          · rintro (hx | hx)
            · exact Or.inl hx
            · exact Or.inr ⟨env, evt, rfl, hl2, hk, hx⟩
          · rintro (hx | ⟨env2, evt2, hi, -, -, ht⟩)
            · exact Or.inl hx
            · cases hi; exact Or.inr ht
      · obtain ⟨srcName, dstName, a, -, -, hfl, -⟩ := iter_inv L s s1 env evt o hl2 h
        have hload : s1.flows.Load k = s.flows.Load k := by
          rw [hfl, CMap.load_store, if_neg (fun hx => hk hx.symm)]
        refine ⟨fun hx => by rw [hload]; exact hx, ?_, ?_⟩
        · unfold State.seenNew; rw [hload]
          constructor
          · intro hx; exact Or.inl hx
          · rintro (hx | ⟨env2, evt2, hi, -, hk2, -⟩)
            · exact hx
            · cases hi; exact absurd hk2 hk
        · unfold State.seenUpdate; rw [hload]
          constructor
          · intro hx; exact Or.inl hx
          · rintro (hx | ⟨env2, evt2, hi, -, hk2, -⟩)
            · exact hx
            · cases hi; exact absurd hk2 hk

/-- The flags stored under a key after a run, in terms of the flags before and the
events of the run. -/
theorem run_flags {Addr : Type} (L : NetLib Addr) (k : String) (ins : List (Input Addr)) :
    ∀ (s s1 : State Addr) (outs : List (Option (Record Addr))),
      run L s ins = some (s1, outs) →
      (s1.seenNew k = true ↔ (s.seenNew k = true ∨ ∃ env evt, Input.conntrack env evt ∈ ins ∧
        L.IsLoopback evt.Flow.TupleOrig.IP.SourceAddress = false ∧
        L.TupleString evt.Flow.TupleOrig = k ∧ evt.Typ = EventType.EventNew)) ∧
      (s1.seenUpdate k = true ↔ (s.seenUpdate k = true ∨ ∃ env evt,
        Input.conntrack env evt ∈ ins ∧
        L.IsLoopback evt.Flow.TupleOrig.IP.SourceAddress = false ∧
        L.TupleString evt.Flow.TupleOrig = k ∧ evt.Typ = EventType.EventUpdate)) := by
  induction ins with
  | nil =>
    intro s s1 outs h
    have h2 : some (s, ([] : List (Option (Record Addr)))) = some (s1, outs) := h
    cases h2
    simp
  | cons i rest ih =>
    intro s s1 outs h
    obtain ⟨s2, o, os, h1, h2, -⟩ := run_cons L s s1 i rest outs h
    obtain ⟨-, hn, hu⟩ := handle_flags L s s2 i o h1 k
    obtain ⟨ihn, ihu⟩ := ih s2 s1 os h2
    constructor
    · rw [ihn, hn]
      constructor
      · rintro ((hx | ⟨env, evt, hi, hrest⟩) | ⟨env, evt, hmem, hrest⟩)
        · exact Or.inl hx
        · exact Or.inr ⟨env, evt, by rw [hi]; exact List.mem_cons_self _ _, hrest⟩
        · exact Or.inr ⟨env, evt, List.mem_cons_of_mem _ hmem, hrest⟩
      · rintro (hx | ⟨env, evt, hmem, hrest⟩)
        · exact Or.inl (Or.inl hx)
        · rcases List.mem_cons.mp hmem with hi | hmem2
          · exact Or.inl (Or.inr ⟨env, evt, hi.symm, hrest⟩)
          · exact Or.inr ⟨env, evt, hmem2, hrest⟩
    · rw [ihu, hu]
      constructor
      · rintro ((hx | ⟨env, evt, hi, hrest⟩) | ⟨env, evt, hmem, hrest⟩)
        · exact Or.inl hx
        · exact Or.inr ⟨env, evt, by rw [hi]; exact List.mem_cons_self _ _, hrest⟩
        · exact Or.inr ⟨env, evt, List.mem_cons_of_mem _ hmem, hrest⟩
      · rintro (hx | ⟨env, evt, hmem, hrest⟩)
        · exact Or.inl (Or.inl hx)
        · rcases List.mem_cons.mp hmem with hi | hmem2
          · exact Or.inl (Or.inr ⟨env, evt, hi.symm, hrest⟩)
          · exact Or.inr ⟨env, evt, hmem2, hrest⟩

/-- C9. The flags `New` and `Update` of a tracked flow are one-way latches. In every
state, whatever input the process handles next (an event of any kind and any key,
or a watch notification), a flow of the table is still in the table afterwards,
with `New` still true if it was true and `Update` still true if it was true. And
in every state reached from start-up, the `New` flag of the flow stored under a
key is true exactly when an `EventNew` for that key has been processed by the loop
(one it did not skip as loopback), and likewise `Update` with `EventUpdate`. -/
theorem flags_are_latches {Addr : Type} (L : NetLib Addr) :
    (∀ (s s1 : State Addr) (i : Input Addr) (o : Option (Record Addr)),
      handle L s i = some (s1, o) →
      ∀ (k : String) (f : Flow Addr), s.flows.Load k = some f →
        ∃ f1, s1.flows.Load k = some f1 ∧ (f.New = true → f1.New = true) ∧
          (f.Update = true → f1.Update = true)) ∧
    (∀ (ins : List (Input Addr)) (s : State Addr) (outs : List (Option (Record Addr))),
      run L (State.init Addr) ins = some (s, outs) →
      ∀ (k : String) (f : Flow Addr), s.flows.Load k = some f →
        (f.New = true ↔ ∃ env evt, Input.conntrack env evt ∈ ins ∧
          L.IsLoopback evt.Flow.TupleOrig.IP.SourceAddress = false ∧
          L.TupleString evt.Flow.TupleOrig = k ∧ evt.Typ = EventType.EventNew) ∧
        (f.Update = true ↔ ∃ env evt, Input.conntrack env evt ∈ ins ∧
          L.IsLoopback evt.Flow.TupleOrig.IP.SourceAddress = false ∧
          L.TupleString evt.Flow.TupleOrig = k ∧ evt.Typ = EventType.EventUpdate)) := by
  constructor
  · intro s s1 i o h k f hf
    obtain ⟨hex, hn, hu⟩ := handle_flags L s s1 i o h k
    obtain ⟨f1, hf1⟩ := Option.isSome_iff_exists.mp (hex (by rw [hf]; rfl))
    have e1 : s.seenNew k = f.New := by unfold State.seenNew; rw [hf]; rfl
    have e2 : s.seenUpdate k = f.Update := by unfold State.seenUpdate; rw [hf]; rfl
    have e3 : s1.seenNew k = f1.New := by unfold State.seenNew; rw [hf1]; rfl
    have e4 : s1.seenUpdate k = f1.Update := by unfold State.seenUpdate; rw [hf1]; rfl
    rw [e1, e3] at hn
    rw [e2, e4] at hu
    exact ⟨f1, hf1, fun hx => hn.2 (Or.inl hx), fun hx => hu.2 (Or.inl hx)⟩
  · intro ins s outs h k f hf
    obtain ⟨hn, hu⟩ := run_flags L k ins (State.init Addr) s outs h
    have e1 : s.seenNew k = f.New := by unfold State.seenNew; rw [hf]; rfl
    have e2 : s.seenUpdate k = f.Update := by unfold State.seenUpdate; rw [hf]; rfl
    have i1 : (State.init Addr).seenNew k = false := rfl
    have i2 : (State.init Addr).seenUpdate k = false := rfl
    rw [e1, i1] at hn
    rw [e2, i2] at hu
    simp only [Bool.false_eq_true, false_or] at hn hu
    exact ⟨hn, hu⟩


/-- Worked example for C9: after the workload is added and a new-connection event is
processed, the stored flow has `New` set and `Update` clear. -/
theorem flags_are_latches_witness :
    ∃ s outs f, run ipv4Lib (State.init IPv4)
        [Input.watch ⟨WatchEventType.Added, some frontendPod⟩,
         Input.conntrack edgeEnv (edgeEvent EventType.EventNew)] = some (s, outs) ∧
      s.flows.Load (ipv4Lib.TupleString edgeTuple) = some f ∧
      f.New = true ∧ ¬ f.Update = true := by
  have key := (flags_are_latches ipv4Lib).2
    [Input.watch ⟨WatchEventType.Added, some frontendPod⟩,
     Input.conntrack edgeEnv (edgeEvent EventType.EventNew)]
  refine ⟨_, _, _, rfl, rfl, ?_, ?_⟩
  · exact (key _ _ rfl (ipv4Lib.TupleString edgeTuple) _ rfl).1.2
      ⟨edgeEnv, edgeEvent EventType.EventNew,
        List.mem_cons_of_mem _ (List.mem_cons_self _ _), by decide, rfl, rfl⟩
  · intro hu
    obtain ⟨env, evt, hmem, -, -, ht⟩ := (key _ _ rfl (ipv4Lib.TupleString edgeTuple) _ rfl).2.1 hu
    simp only [List.mem_cons, List.mem_singleton, List.not_mem_nil, or_false, false_or,
      Input.conntrack.injEq] at hmem
    rcases hmem with hw | ⟨-, he⟩
    · cases hw
    · rw [he] at ht
      exact absurd ht (by decide)

/-! ## C4: field presence -/

/-- C4, as the code has it. For every record the loop prints: `SrcNs` is non-empty
exactly when the source address was found in the identity cache with a non-empty
namespace while processing that event, or was not found and the flow stored under
the key already had a non-empty `SrcNs`; `SrcLabels` likewise with the labels of
the pod, respectively of the stored flow; and the same for `DstNs` and `DstLabels`
with the destination address. In particular, on the first event of a key the
namespace (labels) of a side is non-empty exactly when that side was found with a
non-empty namespace (label set). -/
theorem field_presence {Addr : Type} (L : NetLib Addr) (s s1 : State Addr) (env : IterEnv)
    (evt : Event Addr) (r : Record Addr)
    (h : start_conntrack_iter L s env evt = some (s1, some r)) :
    (r.flow.SrcNs ≠ "" ↔
      ((∃ pod, rDNSPod s.podLUT (L.AddrString evt.Flow.TupleOrig.IP.SourceAddress) = some pod ∧
          pod.Namespace ≠ "") ∨
       (rDNSPod s.podLUT (L.AddrString evt.Flow.TupleOrig.IP.SourceAddress) = none ∧
          ∃ f, s.flows.Load (L.TupleString evt.Flow.TupleOrig) = some f ∧ f.SrcNs ≠ ""))) ∧
    (r.flow.SrcLabels ≠ [] ↔
      ((∃ pod, rDNSPod s.podLUT (L.AddrString evt.Flow.TupleOrig.IP.SourceAddress) = some pod ∧
          pod.Labels ≠ []) ∨
       (rDNSPod s.podLUT (L.AddrString evt.Flow.TupleOrig.IP.SourceAddress) = none ∧
          ∃ f, s.flows.Load (L.TupleString evt.Flow.TupleOrig) = some f ∧ f.SrcLabels ≠ []))) ∧
    (r.flow.DstNs ≠ "" ↔
      ((∃ pod, rDNSPod s.podLUT (L.AddrString evt.Flow.TupleOrig.IP.DestinationAddress) =
          some pod ∧ pod.Namespace ≠ "") ∨
       (rDNSPod s.podLUT (L.AddrString evt.Flow.TupleOrig.IP.DestinationAddress) = none ∧
          ∃ f, s.flows.Load (L.TupleString evt.Flow.TupleOrig) = some f ∧ f.DstNs ≠ ""))) ∧
    (r.flow.DstLabels ≠ [] ↔
      ((∃ pod, rDNSPod s.podLUT (L.AddrString evt.Flow.TupleOrig.IP.DestinationAddress) =
          some pod ∧ pod.Labels ≠ []) ∨
       (rDNSPod s.podLUT (L.AddrString evt.Flow.TupleOrig.IP.DestinationAddress) = none ∧
          ∃ f, s.flows.Load (L.TupleString evt.Flow.TupleOrig) = some f ∧ f.DstLabels ≠ []))) ∧
    (s.flows.Load (L.TupleString evt.Flow.TupleOrig) = none →
      (r.flow.SrcNs ≠ "" ↔
        ∃ pod, rDNSPod s.podLUT (L.AddrString evt.Flow.TupleOrig.IP.SourceAddress) = some pod ∧
          pod.Namespace ≠ "") ∧
      (r.flow.SrcLabels ≠ [] ↔
        ∃ pod, rDNSPod s.podLUT (L.AddrString evt.Flow.TupleOrig.IP.SourceAddress) = some pod ∧
          pod.Labels ≠ []) ∧
      (r.flow.DstNs ≠ "" ↔
        ∃ pod, rDNSPod s.podLUT (L.AddrString evt.Flow.TupleOrig.IP.DestinationAddress) =
          some pod ∧ pod.Namespace ≠ "") ∧
      (r.flow.DstLabels ≠ [] ↔
        ∃ pod, rDNSPod s.podLUT (L.AddrString evt.Flow.TupleOrig.IP.DestinationAddress) =
          some pod ∧ pod.Labels ≠ [])) := by
  have hl : L.IsLoopback evt.Flow.TupleOrig.IP.SourceAddress = false := by
    cases hb : L.IsLoopback evt.Flow.TupleOrig.IP.SourceAddress with
    | false => rfl
    | true =>
      unfold start_conntrack_iter at h
      simp [hb] at h
  obtain ⟨srcName, dstName, a, ha, -, -, ho⟩ := iter_inv L s s1 env evt (some r) hl h
  have hr : r.flow = a.1 := by
    split at ho
    · cases ho; rfl
    · cases ho
  have e1 := applyEvent_srcNs evt.Typ
    (rDNSPod s.podLUT (L.AddrString evt.Flow.TupleOrig.IP.SourceAddress)) srcName
    (rDNSPod s.podLUT (L.AddrString evt.Flow.TupleOrig.IP.DestinationAddress)) dstName
    ((s.flows.Load (L.TupleString evt.Flow.TupleOrig)).getD (freshFlow env.now evt.Flow.TupleOrig))
  have e2 := applyEvent_srcLabels evt.Typ
    (rDNSPod s.podLUT (L.AddrString evt.Flow.TupleOrig.IP.SourceAddress)) srcName
    (rDNSPod s.podLUT (L.AddrString evt.Flow.TupleOrig.IP.DestinationAddress)) dstName
    ((s.flows.Load (L.TupleString evt.Flow.TupleOrig)).getD (freshFlow env.now evt.Flow.TupleOrig))
  have e3 := applyEvent_dstNs evt.Typ
    (rDNSPod s.podLUT (L.AddrString evt.Flow.TupleOrig.IP.SourceAddress)) srcName
    (rDNSPod s.podLUT (L.AddrString evt.Flow.TupleOrig.IP.DestinationAddress)) dstName
    ((s.flows.Load (L.TupleString evt.Flow.TupleOrig)).getD (freshFlow env.now evt.Flow.TupleOrig))
  have e4 := applyEvent_dstLabels evt.Typ
    (rDNSPod s.podLUT (L.AddrString evt.Flow.TupleOrig.IP.SourceAddress)) srcName
    (rDNSPod s.podLUT (L.AddrString evt.Flow.TupleOrig.IP.DestinationAddress)) dstName
    ((s.flows.Load (L.TupleString evt.Flow.TupleOrig)).getD (freshFlow env.now evt.Flow.TupleOrig))
  rw [← ha, ← hr] at e1 e2 e3 e4
  rw [e1, e2, e3, e4]
  cases rDNSPod s.podLUT (L.AddrString evt.Flow.TupleOrig.IP.SourceAddress) <;>
    cases rDNSPod s.podLUT (L.AddrString evt.Flow.TupleOrig.IP.DestinationAddress) <;>
    cases s.flows.Load (L.TupleString evt.Flow.TupleOrig) <;>
    simp [freshFlow]

/-- Worked example for C4: the first event of the scenario; the source is not a workload
and the destination is `web/frontend`. -/
theorem field_presence_witness :
    ∃ s1 r, start_conntrack_iter ipv4Lib frontendState edgeEnv (edgeEvent EventType.EventNew) =
        some (s1, some r) ∧
      ¬ r.flow.SrcNs ≠ "" ∧ r.flow.DstNs ≠ "" := by
  refine ⟨_, _, rfl, ?_, ?_⟩
  · intro hne
    rcases (field_presence ipv4Lib frontendState _ edgeEnv (edgeEvent EventType.EventNew) _
      rfl).1.1 hne with ⟨pod, hp, -⟩ | ⟨-, f, hf, -⟩
    · have hnone : rDNSPod frontendState.podLUT (ipv4Lib.AddrString
          (edgeEvent EventType.EventNew).Flow.TupleOrig.IP.SourceAddress) = none := by decide
      rw [hnone] at hp
      cases hp
    · have hnone : frontendState.flows.Load
          (ipv4Lib.TupleString (edgeEvent EventType.EventNew).Flow.TupleOrig) = none := by decide
      rw [hnone] at hf
      cases hf
  · exact (field_presence ipv4Lib frontendState _ edgeEnv (edgeEvent EventType.EventNew) _
      rfl).2.2.1.2 (Or.inl ⟨frontendPod, by decide, by decide⟩)

/-- C4 fails as stated on a later event of a key: `web/frontend` at `10.0.0.9` is added,
a connection to it is seen, the workload is deleted, and the connection is seen
again. While the last event is processed the destination is not in the identity
cache, yet the record it prints still carries `DstNs = "web"` and the labels. -/
theorem stale_namespace_counterexample :
    ∃ s3 o3 s4 r, run ipv4Lib (State.init IPv4)
        [Input.watch ⟨WatchEventType.Added, some frontendPod⟩,
         Input.conntrack edgeEnv (edgeEvent EventType.EventNew),
         Input.watch ⟨WatchEventType.Deleted, some frontendPod⟩] = some (s3, o3) ∧
      rDNSPod s3.podLUT
        (ipv4Lib.AddrString (edgeEvent EventType.EventDestroy).Flow.TupleOrig.IP.DestinationAddress)
        = none ∧
      start_conntrack_iter ipv4Lib s3 edgeEnv (edgeEvent EventType.EventDestroy) =
        some (s4, some r) ∧
      r.flow.DstNs = "web" ∧ r.flow.DstLabels = [("app", "frontend")] ∧
      r.flow.DstName = "edge.local" := by
  refine ⟨_, _, _, _, rfl, ?_, rfl, ?_, ?_, ?_⟩ <;> decide

end ConntrackLog
